import Mathlib

/-!
Verification of the live block-migration engine (`block-migration.c`).

This file gives a shallow embedding of the sender-side migration engine and the
receiver-side applier, and proves (or refutes) the frozen claims about them.

Modelling conventions:

* Machine integers (`int`, `int64_t`) are modelled as `Nat` where the source
  only ever holds non-negative values (sector numbers, lengths, counters that
  are guarded by assertions), and as `Int` where the sign matters (result
  codes, the `submitted`/`read_done`/`transferred` pipeline counters, the
  progress percentage which is initialised to -1).
* `long double` time and bandwidth arithmetic is modelled as exact rational
  arithmetic (`ℚ`); floating-point rounding is out of scope.
* The transport (`QEMUFile`) is modelled at the granularity of its primitive
  operations: the engine's emitted stream is a list of `WireItem`s
  (`qemu_put_be64` / `qemu_put_byte` / `qemu_put_buffer` / `qemu_fflush`), and
  the receiver consumes such a list.  `qemu_fflush` writes no bytes, so the
  receiver skips it.
* The block-driver collaborators are modelled as data carried by each device:
  a byte-content function (reads always succeed and return those bytes — read
  and write errors come from hardware outside this repository), a per-sector
  allocation table for `bdrv_is_allocated`, and a set of dirty chunk indices
  for the dirty-tracking primitives (`bdrv_get_dirty` / `bdrv_reset_dirty` /
  `bdrv_get_dirty_count`).  The per-device aio in-flight bitmap
  (`bmds->aio_bitmap`) is likewise a set of chunk indices.
* Asynchronous reads: a submitted read is appended to an `inflight` list; its
  completion callback (`blk_mig_read_cb`) is `blk_mig_read_cb_step`, applied
  either to a chosen in-flight element (out-of-order completion) or to all of
  them in submission order by `bdrv_drain_all` (modelled by `drain_all`).  The
  wall-clock is an oracle value passed to each operation.
* The static debug counters `total_blocks`/`zero_blocks`/`bulk_blocks` and all
  `DPRINTF`/`printf` output are omitted: they never reach the migration
  stream.
-/

namespace BlockMigration

/-- Sector addressing bits, `BDRV_SECTOR_BITS` (a sector is 512 bytes). -/
def BDRV_SECTOR_BITS : Nat := 9

/-- Bytes per sector, `BDRV_SECTOR_SIZE`. -/
def BDRV_SECTOR_SIZE : Nat := 512

/-- Sectors per dirty-tracking chunk, `BDRV_SECTORS_PER_DIRTY_CHUNK`. -/
def BDRV_SECTORS_PER_DIRTY_CHUNK : Nat := 2048

/-- Bytes per chunk: `BLOCK_SIZE = BDRV_SECTORS_PER_DIRTY_CHUNK << BDRV_SECTOR_BITS`. -/
def BLOCK_SIZE : Nat := BDRV_SECTORS_PER_DIRTY_CHUNK <<< BDRV_SECTOR_BITS

/-- Wire flag bit for a device-block frame. -/
def BLK_MIG_FLAG_DEVICE_BLOCK : Nat := 0x01

/-- Wire flag bit for the end-of-stream marker. -/
def BLK_MIG_FLAG_EOS : Nat := 0x02

/-- Wire flag bit for a progress frame. -/
def BLK_MIG_FLAG_PROGRESS : Nat := 0x04

/-- Wire flag bit marking an all-zero device-block frame. -/
def BLK_MIG_FLAG_ZERO_BLOCK : Nat := 0x08

/-- Cap on the `bdrv_is_allocated` probe, `MAX_IS_ALLOCATED_SEARCH`. -/
def MAX_IS_ALLOCATED_SEARCH : Nat := 65536

/-- One primitive write to the transport (`QEMUFile`).  `qemu_put_byte` stores
its argument truncated to a byte, which is how the hardware transport behaves. -/
inductive WireItem where
  | put_be64 (v : Nat)
  | put_byte (b : Nat)
  | put_buffer (data : List Nat)
  | fflush
deriving DecidableEq

/-- Per-device migration state, `BlkMigDevState`, with the collaborating
`BlockDriverState` folded in: `device_name`, the byte `content` of the device
(`bdrv_read`/`bdrv_aio_readv` return these bytes), the per-sector `allocated`
table consulted by `bdrv_is_allocated`, and the `dirty` chunk set maintained by
the dirty-tracking primitives.  `aio_bitmap` is the set of chunk indices whose
in-flight bit is set. -/
structure BlkMigDevState where
  device_name : List Nat
  content : Nat → Nat
  allocated : List Bool
  total_sectors : Nat
  dirty : Finset Nat
  aio_bitmap : Finset Nat
  bulk_completed : Bool
  shared_base : Bool
  sparse_enable : Bool
  cur_sector : Nat
  cur_dirty : Nat
  completed_sectors : Nat

instance : Inhabited BlkMigDevState :=
  ⟨{ device_name := [], content := fun _ => 0, allocated := [], total_sectors := 0,
     dirty := ∅, aio_bitmap := ∅, bulk_completed := false, shared_base := false,
     sparse_enable := false, cur_sector := 0, cur_dirty := 0, completed_sectors := 0 }⟩

/-- One pending chunk, `BlkMigBlock`.  The owning device is referenced by its
index `devIdx` in the engine's device list (a non-owning back-reference). -/
structure BlkMigBlock where
  devIdx : Nat
  sector : Nat
  nr_sectors : Nat
  buf : List Nat
  ret : Int
deriving DecidableEq

instance : Inhabited BlkMigBlock := ⟨{ devIdx := 0, sector := 0, nr_sectors := 0, buf := [], ret := 0 }⟩

/-- The engine singleton, `BlkMigState`, plus the model of the byte sink: the
stream of `WireItem`s written so far (`output`) and the list of async reads
submitted but not yet completed (`inflight`, owned by the block layer in the
source). -/
structure BlkMigState where
  blk_enable : Nat
  shared_base : Bool
  sparse_enable : Bool
  bmds_list : List BlkMigDevState
  blk_list : List BlkMigBlock
  inflight : List BlkMigBlock
  submitted : Int
  read_done : Int
  transferred : Int
  total_sector_sum : Nat
  prev_progress : Int
  bulk_completed : Bool
  total_time : ℚ
  prev_time_offset : ℚ
  reads : Nat
  output : List WireItem

instance : Inhabited BlkMigState :=
  ⟨{ blk_enable := 0, shared_base := false, sparse_enable := false, bmds_list := [],
     blk_list := [], inflight := [], submitted := 0, read_done := 0, transferred := 0,
     total_sector_sum := 0, prev_progress := 0, bulk_completed := false,
     total_time := 0, prev_time_offset := 0, reads := 0, output := [] }⟩

/-- Chunk indices touched by the sector range `[sector, sector + n)`; the loop
bounds of `bmds_set_aio_inflight` (`start = sector do SPC`,
`end = (sector + n - 1) div SPC`, inclusive). -/
def chunkRange (sector n : Nat) : Finset Nat :=
  Finset.Icc (sector / BDRV_SECTORS_PER_DIRTY_CHUNK)
    ((sector + n - 1) / BDRV_SECTORS_PER_DIRTY_CHUNK)

/-- Test of the in-flight bit, `bmds_aio_inflight`: false for sectors at or
beyond the device length. -/
def bmds_aio_inflight (d : BlkMigDevState) (sector : Nat) : Bool :=
  if sector < d.total_sectors then
    decide (sector / BDRV_SECTORS_PER_DIRTY_CHUNK ∈ d.aio_bitmap)
  else false

/-- Set or clear the in-flight bits of all chunks touched by
`[sector, sector + n)`, `bmds_set_aio_inflight`. -/
def bmds_set_aio_inflight (d : BlkMigDevState) (sector n : Nat) (set : Bool) : BlkMigDevState :=
  { d with aio_bitmap :=
      if set then d.aio_bitmap ∪ chunkRange sector n else d.aio_bitmap \ chunkRange sector n }

/-- Dirty-bit test of the chunk containing `sector` (`bdrv_get_dirty`). -/
def bdrv_get_dirty (d : BlkMigDevState) (sector : Nat) : Bool :=
  decide (sector / BDRV_SECTORS_PER_DIRTY_CHUNK ∈ d.dirty)

/-- Clear the dirty bits of all chunks touched by `[sector, sector + n)`
(`bdrv_reset_dirty`). -/
def bdrv_reset_dirty (d : BlkMigDevState) (sector n : Nat) : BlkMigDevState :=
  { d with dirty := d.dirty \ chunkRange sector n }

/-- Allocation probe `bdrv_is_allocated bs sector max_search`: returns the
allocation status of `sector` and the length of the contiguous run of sectors
with that same status, capped at `max_search`. -/
def bdrv_is_allocated (d : BlkMigDevState) (sector cap : Nat) : Bool × Nat :=
  let status := d.allocated.getD sector false
  let run := ((d.allocated.drop sector).takeWhile (fun b => b == status)).length
  (status, min run cap)

/-- Bytes returned by a successful read of `nr` sectors starting at `sector`. -/
def readBuf (content : Nat → Nat) (sector nr : Nat) : List Nat :=
  (List.range (nr * BDRV_SECTOR_SIZE)).map (fun k => content (sector * BDRV_SECTOR_SIZE + k))

/-- Replace device `i` of the engine's device list (in-place mutation of
`bmds` fields in the source).  Out-of-range indices leave the list unchanged. -/
def updDev (st : BlkMigState) (i : Nat) (f : BlkMigDevState → BlkMigDevState) : BlkMigState :=
  { st with bmds_list := st.bmds_list.set i (f (st.bmds_list.getD i default)) }

/-- Vectorized all-zero scan of a chunk buffer, `is_zero_blk`.  The source
compares `BLOCK_SIZE` bytes in 16-byte groups against zero; on the buffers the
engine passes (always of length `BLOCK_SIZE`) that is exactly an all-zero test. -/
def is_zero_blk (buf : List Nat) : Bool := buf.all (fun b => b == 0)

/-- Frame encoder `blk_send`: the list of transport operations it performs.
Elides the frame entirely when the buffer is all zero, the owning device has
sparse mode enabled, and the device is still in its bulk phase.  Otherwise
emits the 64-bit header `(sector << BDRV_SECTOR_BITS) | DEVICE_BLOCK
[| ZERO_BLOCK]`, the device-name length byte, the name bytes, and then either
the full `BLOCK_SIZE` payload (non-zero buffer) or an explicit flush (zero
buffer). -/
def blk_send (d : BlkMigDevState) (blk : BlkMigBlock) : List WireItem :=
  let zero_blk := is_zero_blk blk.buf
  if zero_blk = true ∧ d.sparse_enable = true ∧ d.bulk_completed = false then
    []
  else
    [WireItem.put_be64 ((blk.sector <<< BDRV_SECTOR_BITS) |||
        BLK_MIG_FLAG_DEVICE_BLOCK ||| (if zero_blk then BLK_MIG_FLAG_ZERO_BLOCK else 0)),
     WireItem.put_byte (d.device_name.length % 256),
     WireItem.put_buffer d.device_name] ++
    (if zero_blk then [WireItem.fflush] else [WireItem.put_buffer blk.buf])

/-- Read-completion callback `blk_mig_read_cb` as a state transformer: record
the result code, account the elapsed wall time to the read-throughput
accumulator, append the block to the pending queue, clear its in-flight bits,
decrement `submitted` and increment `read_done`.  `now` is the clock oracle
(`qemu_get_clock_ns(rt_clock)`).  Removal from the `inflight` list is done by
the caller (the block layer retires the aiocb). -/
def blk_mig_read_cb_step (st : BlkMigState) (blk : BlkMigBlock) (ret : Int) (now : ℚ) :
    BlkMigState :=
  let d := st.bmds_list.getD blk.devIdx default
  { st with
    reads := st.reads + 1,
    total_time := st.total_time + (now - st.prev_time_offset),
    prev_time_offset := now,
    blk_list := st.blk_list ++ [{ blk with ret := ret }],
    bmds_list := st.bmds_list.set blk.devIdx (bmds_set_aio_inflight d blk.sector blk.nr_sectors false),
    submitted := st.submitted - 1,
    read_done := st.read_done + 1 }

/-- Global drain, `bdrv_drain_all`: every outstanding async read completes (in
submission order, with result 0 — reads succeed in this model) and its
completion callback runs. -/
def drain_all (st : BlkMigState) (now : ℚ) : BlkMigState :=
  st.inflight.foldl (fun s b => blk_mig_read_cb_step s b 0 now) { st with inflight := [] }

/-- Throughput-accounting timestamp reset performed before a submission when
no read is outstanding: `if (block_mig_state.submitted == 0)
prev_time_offset = qemu_get_clock_ns(rt_clock)`. -/
def maybeResetTimer (st : BlkMigState) (now : ℚ) : BlkMigState :=
  if st.submitted = 0 then { st with prev_time_offset := now } else st

/-- Leading-unallocated-run skip loop of `mig_save_device_bulk` (shared-base
devices only): `while (cur < total && !bdrv_is_allocated(...)) cur += nr`.
`fuel` bounds the iteration count (the run length returned by the driver is
at least 1 for in-range sectors, so `total_sectors` iterations always
suffice); a returned run of 0 — impossible for a well-formed allocation
table — stops the loop. -/
def bulkSkipUnallocated (d : BlkMigDevState) : Nat → Nat → Nat
  | 0, cur => cur
  | fuel + 1, cur =>
    if cur < d.total_sectors ∧ (bdrv_is_allocated d cur MAX_IS_ALLOCATED_SEARCH).1 = false then
      let nr := (bdrv_is_allocated d cur MAX_IS_ALLOCATED_SEARCH).2
      if nr = 0 then cur else bulkSkipUnallocated d fuel (cur + nr)
    else cur

/-- One bulk step for device `i`, `mig_save_device_bulk`: skip unallocated
sectors (shared base), finish the device if the cursor reached the end,
otherwise record progress, align the cursor down to a chunk boundary, submit
an async read of `min(SPC, total - cur)` sectors, reset the dirty bits of the
covered range, and advance the cursor.  Returns 1 iff the device's bulk pass
is finished. -/
def mig_save_device_bulk (st : BlkMigState) (i : Nat) (now : ℚ) : BlkMigState × Int :=
  let d := st.bmds_list.getD i default
  let total := d.total_sectors
  let cur1 := if d.shared_base then bulkSkipUnallocated d total d.cur_sector else d.cur_sector
  if total ≤ cur1 then
    (updDev st i (fun d => { d with cur_sector := total, completed_sectors := total }), 1)
  else
    let cur := BDRV_SECTORS_PER_DIRTY_CHUNK * (cur1 / BDRV_SECTORS_PER_DIRTY_CHUNK)
    let nr := if total - cur < BDRV_SECTORS_PER_DIRTY_CHUNK then total - cur
              else BDRV_SECTORS_PER_DIRTY_CHUNK
    let blk : BlkMigBlock :=
      { devIdx := i, sector := cur, nr_sectors := nr, buf := readBuf d.content cur nr, ret := 0 }
    let st1 := updDev st i (fun d => { d with completed_sectors := cur1 })
    let st2 := maybeResetTimer st1 now
    let st3 := { st2 with inflight := st2.inflight ++ [blk], submitted := st2.submitted + 1 }
    let st4 := updDev st3 i (fun d => bdrv_reset_dirty d cur nr)
    let st5 := updDev st4 i (fun d => { d with cur_sector := cur + nr })
    (st5, if total ≤ cur + nr then 1 else 0)

/-- Exit of `mig_save_device_dirty`'s scan: the function returns
`bmds->cur_dirty >= bmds->total_sectors` for device `i`. -/
def dirtyScanRet (st : BlkMigState) (i : Nat) : BlkMigState × Int :=
  let d := st.bmds_list.getD i default
  (st, if d.total_sectors ≤ d.cur_dirty then 1 else 0)

/-- Copy branch of `mig_save_device_dirty`'s scan, entered when the dirty bit
of `sector`'s chunk is set: copy `min(SPC, total - sector)` sectors — submit
an async read and set the covered in-flight bits, or read synchronously and
encode-and-send inline — then reset the covered dirty bits and return
(`break` followed by the function's return). -/
def dirtyCopyChunk (st1 : BlkMigState) (i : Nat) (sector : Nat) (is_async : Bool) (now : ℚ) :
    BlkMigState × Int :=
  let d1 := st1.bmds_list.getD i default
  let nr := if d1.total_sectors - sector < BDRV_SECTORS_PER_DIRTY_CHUNK then
              d1.total_sectors - sector
            else BDRV_SECTORS_PER_DIRTY_CHUNK
  let blk : BlkMigBlock :=
    { devIdx := i, sector := sector, nr_sectors := nr,
      buf := readBuf d1.content sector nr, ret := 0 }
  let st2 :=
    if is_async then
      let sta := maybeResetTimer st1 now
      let stb := { sta with inflight := sta.inflight ++ [blk],
                            submitted := sta.submitted + 1 }
      updDev stb i (fun d => bmds_set_aio_inflight d sector nr true)
    else
      { st1 with output := st1.output ++ blk_send d1 blk }
  let st3 := updDev st2 i (fun d => bdrv_reset_dirty d sector nr)
  dirtyScanRet st3 i

/-- Scan loop of `mig_save_device_dirty` for device `i`: starting at the
device's dirty cursor, scan forward one chunk at a time.  A chunk whose
in-flight bit is set triggers a global drain first.  The first dirty chunk is
copied (`dirtyCopyChunk`) and the loop breaks; a clean chunk advances the
cursor.  The returned code is `cur_dirty >= total_sectors` (1 or 0) at exit.
`fuel` bounds the chunk count remaining (the wrapper passes enough for the
whole device). -/
def dirtyScanLoop (i : Nat) (is_async : Bool) (now : ℚ) :
    Nat → BlkMigState → Nat → BlkMigState × Int
  | 0, st, _ => dirtyScanRet st i
  | fuel + 1, st, sector =>
    let d := st.bmds_list.getD i default
    if sector < d.total_sectors then
      let st1 := if bmds_aio_inflight d sector then drain_all st now else st
      let d1 := st1.bmds_list.getD i default
      if bdrv_get_dirty d1 sector then
        dirtyCopyChunk st1 i sector is_async now
      else
        let st2 := updDev st1 i (fun d => { d with cur_dirty := sector + BDRV_SECTORS_PER_DIRTY_CHUNK })
        dirtyScanLoop i is_async now fuel st2 (sector + BDRV_SECTORS_PER_DIRTY_CHUNK)
    else
      dirtyScanRet st i

/-- One dirty step for device `i`, `mig_save_device_dirty`.  (The synchronous
read cannot fail in this model, so the `-EIO` error path is not taken.) -/
def mig_save_device_dirty (st : BlkMigState) (i : Nat) (is_async : Bool) (now : ℚ) :
    BlkMigState × Int :=
  let d := st.bmds_list.getD i default
  dirtyScanLoop i is_async now
    ((d.total_sectors - d.cur_dirty) / BDRV_SECTORS_PER_DIRTY_CHUNK + 1) st d.cur_dirty

/-- Device loop of `blk_mig_save_dirty_block`: run a dirty step on each device
in order, stopping at the first result `<= 0`; the accumulator starts at 1. -/
def dirtyBlockLoop (is_async : Bool) (now : ℚ) :
    List Nat → BlkMigState → Int → BlkMigState × Int
  | [], st, ret => (st, ret)
  | i :: rest, st, _ =>
    let r := mig_save_device_dirty st i is_async now
    if r.2 ≤ 0 then r else dirtyBlockLoop is_async now rest r.1 r.2

/-- One engine-wide dirty step, `blk_mig_save_dirty_block`: returns 1 when no
device had a dirty chunk left at its cursor, 0 when a chunk was copied. -/
def blk_mig_save_dirty_block (st : BlkMigState) (is_async : Bool) (now : ℚ) :
    BlkMigState × Int :=
  dirtyBlockLoop is_async now (List.range st.bmds_list.length) st 1

/-- Device loop of `blk_mig_save_bulked_block`: find the first device whose
bulk pass is not completed, run one bulk step on it (marking it completed if
the step reports so), and stop; returns the accumulated completed-sector sum
(devices after the first incomplete one are not counted — the source breaks
out of the loop) and the `ret` flag (1 iff an incomplete device was found). -/
def bulkedBlockLoop (now : ℚ) : List Nat → BlkMigState → Nat → BlkMigState × Nat × Int
  | [], st, sum => (st, sum, 0)
  | i :: rest, st, sum =>
    let d := st.bmds_list.getD i default
    if d.bulk_completed = false then
      let r := mig_save_device_bulk st i now
      let st2 := if r.2 = 1 then updDev r.1 i (fun d => { d with bulk_completed := true }) else r.1
      let d2 := st2.bmds_list.getD i default
      (st2, sum + d2.completed_sectors, 1)
    else
      bulkedBlockLoop now rest st (sum + d.completed_sectors)

/-- One engine-wide bulk step, `blk_mig_save_bulked_block`: advance the first
not-yet-completed device by one chunk and emit a progress frame when the
integer progress percentage changed.  Returns 0 iff every device has finished
its bulk pass. -/
def blk_mig_save_bulked_block (st : BlkMigState) (now : ℚ) : BlkMigState × Int :=
  let r := bulkedBlockLoop now (List.range st.bmds_list.length) st 0
  let st1 := r.1
  let progress : Int :=
    if st1.total_sector_sum ≠ 0 then ((r.2.1 * 100 / st1.total_sector_sum : Nat) : Int) else 100
  if progress ≠ st1.prev_progress then
    let frame := WireItem.put_be64 ((progress.toNat <<< BDRV_SECTOR_BITS) ||| BLK_MIG_FLAG_PROGRESS)
    ({ st1 with prev_progress := progress, output := st1.output ++ [frame] }, r.2.2)
  else (st1, r.2.2)

/-- Reset every device's dirty cursor, `blk_mig_reset_dirty_cursor`. -/
def blk_mig_reset_dirty_cursor (st : BlkMigState) : BlkMigState :=
  { st with bmds_list := st.bmds_list.map (fun d => { d with cur_dirty := 0 }) }

/-- Send loop of `flush_blks`: pop the pending queue head-first; stop (with
result 0) when the transport reports it is over its rate limit, stop with the
block's result code when the head completed with an error (the head is then
left queued), otherwise encode-and-send the head, drop it, decrement
`read_done` and increment `transferred`.  `rl` is the rate-limit oracle
(`qemu_file_rate_limit`), consulted with the running `transferred` count so
that successive probes can differ; `fuel` is the queue length. -/
def flushLoop (rl : Nat → Bool) : Nat → BlkMigState → BlkMigState × Int
  | 0, st => (st, 0)
  | fuel + 1, st =>
    match st.blk_list with
    | [] => (st, 0)
    | blk :: rest =>
      if rl st.transferred.toNat then (st, 0)
      else if blk.ret < 0 then (st, blk.ret)
      else
        let d := st.bmds_list.getD blk.devIdx default
        flushLoop rl fuel
          { st with output := st.output ++ blk_send d blk,
                    blk_list := rest,
                    read_done := st.read_done - 1,
                    transferred := st.transferred + 1 }

/-- Drain the pending queue into the transport, `flush_blks`. -/
def flush_blks (st : BlkMigState) (rl : Nat → Bool) : BlkMigState × Int :=
  flushLoop rl st.blk_list.length st

/-- Remaining dirty bytes, `get_remaining_dirty`: the sum over devices of
`bdrv_get_dirty_count` (dirty chunks) times `BLOCK_SIZE`. -/
def get_remaining_dirty (st : BlkMigState) : Nat :=
  (st.bmds_list.map (fun d => d.dirty.card)).sum * BLOCK_SIZE

/-- Measured read bandwidth, `compute_read_bwidth`:
`(reads / total_time) * BLOCK_SIZE` (bytes per time unit), over exact
rationals.  The source asserts `total_time != 0` before dividing. -/
def compute_read_bwidth (st : BlkMigState) : ℚ :=
  ((st.reads : ℚ) / st.total_time) * (BLOCK_SIZE : ℚ)

/-- Convergence test `is_stage2_completed`: true iff the engine's bulk phase
is completed and either no dirty bytes remain or the remaining dirty bytes can
be transferred at the measured read bandwidth within `max_downtime` (an oracle
from the outer migration driver). -/
def is_stage2_completed (st : BlkMigState) (max_downtime : ℚ) : Bool :=
  if st.bulk_completed = true then
    let remaining_dirty := get_remaining_dirty st
    if remaining_dirty = 0 then true
    else decide ((remaining_dirty : ℚ) / compute_read_bwidth st ≤ max_downtime)
  else false

/-- Cleanup, `blk_mig_cleanup`: drain all in-flight reads (their completion
callbacks still run), then free every device state and every queued block.
(Dirty tracking is disabled on the devices as they are dropped.) -/
def blk_mig_cleanup (st : BlkMigState) (now : ℚ) : BlkMigState :=
  let st1 := drain_all st now
  { st1 with bmds_list := [], blk_list := [] }

/-- Session initialisation `init_blk_migration` combined with the per-device
registration `init_blk_migration_it` and the fresh dirty bitmaps installed by
`set_dirty_tracking(1)`: reset all counters and flags, and register every
enumerated device of positive length with zeroed cursors, cleared in-flight
bitmap and empty dirty set.  `devs` is the device list produced by
`bdrv_iterate` (read-only devices already excluded). -/
def init_blk_migration (st : BlkMigState) (devs : List BlkMigDevState) : BlkMigState :=
  let regs := (devs.filter (fun d => 0 < d.total_sectors)).map
    (fun d => { d with bulk_completed := false, completed_sectors := 0, cur_sector := 0,
                       cur_dirty := 0, shared_base := st.shared_base,
                       sparse_enable := st.sparse_enable, aio_bitmap := ∅, dirty := ∅ })
  { st with
    submitted := 0, read_done := 0, transferred := 0,
    total_sector_sum := (regs.map (fun d => d.total_sectors)).sum,
    prev_progress := -1, bulk_completed := false, total_time := 0, reads := 0,
    bmds_list := regs }

/-- Setup hook `block_save_setup`: initialise the session, enable dirty
tracking, drain the (empty) pending queue, reset the dirty cursors and emit an
`EOS` marker. -/
def block_save_setup (st : BlkMigState) (devs : List BlkMigDevState) (rl : Nat → Bool)
    (now : ℚ) : BlkMigState × Int :=
  let st1 := init_blk_migration st devs
  let r := flush_blks st1 rl
  if r.2 ≠ 0 then (blk_mig_cleanup r.1 now, r.2)
  else
    let st2 := blk_mig_reset_dirty_cursor r.1
    ({ st2 with output := st2.output ++ [WireItem.put_be64 BLK_MIG_FLAG_EOS] }, 0)

/-- Rate-controlled transfer loop of `block_save_iterate`: while
`(submitted + read_done) * BLOCK_SIZE < rate_limit`, run one bulk step (and
set the engine's `bulk_completed` once no incomplete device remains) or one
dirty step (breaking, with its result as `ret`, when it reports nonzero).
`fuel` bounds the iteration count; the wrapper passes a bound that the loop
cannot exhaust (every iteration either raises `submitted + read_done`, marks a
device bulk-complete, flips the engine flag, or breaks). -/
def iterateLoop (rateLimit : Nat) (now : ℚ) : Nat → BlkMigState → Int → BlkMigState × Int
  | 0, st, ret => (st, ret)
  | fuel + 1, st, ret =>
    if (st.submitted + st.read_done) * (BLOCK_SIZE : Int) < (rateLimit : Int) then
      if st.bulk_completed = false then
        let r := blk_mig_save_bulked_block st now
        let st2 := if r.2 = 0 then { r.1 with bulk_completed := true } else r.1
        iterateLoop rateLimit now fuel st2 ret
      else
        let r := blk_mig_save_dirty_block st true now
        if r.2 ≠ 0 then r else iterateLoop rateLimit now fuel r.1 r.2
    else (st, ret)

/-- Iterate hook `block_save_iterate`: drain the pending queue; reset the
dirty cursors; run the rate-controlled transfer loop; on a nonzero loop result
(`if (ret)` in the source — read errors, but also the dirty scan's "no dirty
chunk found anywhere" result 1) clean up and return it; otherwise drain the
queue again, emit `EOS` and return the convergence test's verdict.
`rateLimit` is `qemu_file_get_rate_limit(f)`. -/
def block_save_iterate (st : BlkMigState) (rateLimit : Nat) (rl : Nat → Bool)
    (now max_downtime : ℚ) : BlkMigState × Int :=
  let r1 := flush_blks st rl
  if r1.2 ≠ 0 then (blk_mig_cleanup r1.1 now, r1.2)
  else
    let st2 := blk_mig_reset_dirty_cursor r1.1
    let fuel := rateLimit / BLOCK_SIZE + st2.bmds_list.length + 3
    let r3 := iterateLoop rateLimit now fuel st2 0
    if r3.2 ≠ 0 then (blk_mig_cleanup r3.1 now, r3.2)
    else
      let r4 := flush_blks r3.1 rl
      if r4.2 ≠ 0 then (blk_mig_cleanup r4.1 now, r4.2)
      else
        ({ r4.1 with output := r4.1.output ++ [WireItem.put_be64 BLK_MIG_FLAG_EOS] },
         if is_stage2_completed r4.1 max_downtime then 1 else 0)

/-- Parameter record handed to `block_set_params` (`MigrationParams`); the
monitor passes boolean values. -/
structure MigrationParams where
  blk : Bool
  shared : Bool
  sparse : Bool

/-- Parameter hook `block_set_params`: latch the three flags and OR `shared`
and `sparse` into `blk_enable` (each of them implies block migration). -/
def block_set_params (p : MigrationParams) (st : BlkMigState) : BlkMigState :=
  let st1 := { st with blk_enable := (if p.blk then 1 else 0 : Nat),
                       shared_base := p.shared, sparse_enable := p.sparse }
  let st2 := { st1 with blk_enable := st1.blk_enable ||| (if p.shared then 1 else 0) }
  { st2 with blk_enable := st2.blk_enable ||| (if p.sparse then 1 else 0) }

/-- Activity predicate `block_is_active`: block migration runs iff
`blk_enable == 1`. -/
def block_is_active (st : BlkMigState) : Bool :=
  decide (st.blk_enable = 1)

/-! ## Receiver (`block_load`) -/

/-- One write applied to a local block device by the receiver
(`bdrv_write(bs, addr, buf, nr_sectors)`): the target device's name, the
starting sector, the sector count, and the bytes written (the first
`nr_sectors * 512` bytes of the receiver's chunk buffer). -/
structure BlkWrite where
  device : List Nat
  sector : Nat
  nr_sectors : Nat
  data : List Nat
deriving DecidableEq

/-- Next transport read: `qemu_fflush` writes no bytes, so flush tokens are
transparent to the receiver. -/
def nextTok : List WireItem → Option (WireItem × List WireItem)
  | [] => none
  | WireItem.fflush :: rest => nextTok rest
  | t :: rest => some (t, rest)

/-- Device table available to the receiver: `bdrv_find` by name, yielding the
device's total sector count (`bdrv_getlength >> BDRV_SECTOR_BITS`). -/
def findDev (devs : List (List Nat × Nat)) (name : List Nat) : Option Nat :=
  match devs.find? (fun p => p.1 == name) with
  | some p => some p.2
  | none => none

/-- Decoding loop of `block_load`.  Loop state: the cached device name
(`bs_prev`), its cached `total_sectors`, the scratch buffer and its
`buf_is_zeroed` flag, and the writes applied so far.  Each round reads a
64-bit header; `DEVICE_BLOCK` frames read the name, look up the device
(re-querying the length only when the device changed), compute
`nr_sectors = min(SPC, total - addr)`, obtain the chunk bytes (re-zeroing the
scratch buffer only when it is not already zeroed for a `ZERO_BLOCK` frame;
reading `BLOCK_SIZE` payload bytes otherwise) and write `nr_sectors` sectors
at `addr`.  `PROGRESS` frames only print.  A frame with none of the known
flags aborts with `-EINVAL` (-22), as does an unknown device or a non-positive
device length; a malformed transport read is modelled as `-EINVAL` too.  The
loop stops at the first header carrying `EOS`.  `fuel` bounds the frame count
(the wrapper passes the stream length, and each frame consumes at least one
token). -/
def blockLoadLoop (devs : List (List Nat × Nat)) :
    Nat → List WireItem → Option (List Nat) → Nat → List Nat → Bool → List BlkWrite →
    Except Int (List BlkWrite)
  | 0, _, _, _, _, _, _ => Except.error (-22)
  | fuel + 1, stream, bs_prev, total0, buf0, zeroed0, acc =>
    match nextTok stream with
    | some (WireItem.put_be64 a, s1) =>
      let flags := a % 512
      let addr := a / 512
      if flags &&& BLK_MIG_FLAG_DEVICE_BLOCK ≠ 0 then
        match nextTok s1 with
        | some (WireItem.put_byte len, s2) =>
          match nextTok s2 with
          | some (WireItem.put_buffer name, s3) =>
            if name.length ≠ len then Except.error (-22)
            else
              match findDev devs name with
              | none => Except.error (-22)
              | some tsec =>
                let changed := bs_prev ≠ some name
                let total := if changed then tsec else total0
                if changed ∧ total = 0 then Except.error (-22)
                else
                  let nr := if total - addr < BDRV_SECTORS_PER_DIRTY_CHUNK then total - addr
                            else BDRV_SECTORS_PER_DIRTY_CHUNK
                  let step := fun (buf : List Nat) (zeroed : Bool) (s4 : List WireItem) =>
                    let w : BlkWrite :=
                      { device := name, sector := addr, nr_sectors := nr,
                        data := buf.take (nr * BDRV_SECTOR_SIZE) }
                    if flags &&& BLK_MIG_FLAG_EOS ≠ 0 then Except.ok (acc ++ [w])
                    else blockLoadLoop devs fuel s4 (some name) total buf zeroed (acc ++ [w])
                  if flags &&& BLK_MIG_FLAG_ZERO_BLOCK ≠ 0 then
                    let buf := if zeroed0 = false then List.replicate BLOCK_SIZE 0 else buf0
                    step buf true s3
                  else
                    match nextTok s3 with
                    | some (WireItem.put_buffer payload, s4) =>
                      if payload.length ≠ BLOCK_SIZE then Except.error (-22)
                      else step payload false s4
                    | _ => Except.error (-22)
          | _ => Except.error (-22)
        | _ => Except.error (-22)
      else if flags &&& BLK_MIG_FLAG_PROGRESS ≠ 0 then
        if flags &&& BLK_MIG_FLAG_EOS ≠ 0 then Except.ok acc
        else blockLoadLoop devs fuel s1 bs_prev total0 buf0 zeroed0 acc
      else if flags &&& BLK_MIG_FLAG_EOS = 0 then Except.error (-22)
      else Except.ok acc
    | _ => Except.error (-22)

/-- Receiver hook `block_load`: decode a stream against the local device table
and return the writes it applies (or the error it propagates).  The scratch
buffer starts unzeroed (`buf_is_zeroed = 0`); its initial contents (a fresh
`g_malloc` in the source) are irrelevant because every path overwrites it
before the first write. -/
def block_load (stream : List WireItem) (devs : List (List Nat × Nat)) :
    Except Int (List BlkWrite) :=
  blockLoadLoop devs (stream.length + 1) stream none 0 (List.replicate BLOCK_SIZE 0) false []

/-! ## Specification helpers and engine-operation machinery -/

/-- Position of the first dirty chunk at or after `sector` (chunk-aligned
steps), or `none` when the scan reaches `total` first: the pure
characterisation of what `mig_save_device_dirty`'s scan finds.  Mirrors the
fuel discipline of `dirtyScanLoop`. -/
def firstDirtyAux (ds : Finset Nat) (total : Nat) : Nat → Nat → Option Nat
  | 0, _ => none
  | fuel + 1, sector =>
    if sector < total then
      if sector / BDRV_SECTORS_PER_DIRTY_CHUNK ∈ ds then some sector
      else firstDirtyAux ds total fuel (sector + BDRV_SECTORS_PER_DIRTY_CHUNK)
    else none

/-- First dirty chunk of device `d` at or after its dirty cursor. -/
def firstDirty (d : BlkMigDevState) : Option Nat :=
  firstDirtyAux d.dirty d.total_sectors
    ((d.total_sectors - d.cur_dirty) / BDRV_SECTORS_PER_DIRTY_CHUNK + 1) d.cur_dirty

/-- Postcondition of one dirty step on device `i`, relating the pre-step
device `dpre` and the scan's verdict `found` (`firstDirty`) to the result
`r = (state, code)`: the device's size is unchanged; the returned code is 1
exactly when the dirty cursor has reached the device's total sectors; when no
dirty chunk was found the cursor has swept to the end and the dirty set is
untouched; when the first dirty chunk was found at sector `s`, the cursor is
left AT `s` (not advanced past the copied chunk), the copied chunk's dirty bit
is reset, no dirty bit is ever set, and the returned code is 0. -/
def dirtyScanPost (dpre : BlkMigDevState) (found : Option Nat) (r : BlkMigState × Int)
    (i : Nat) : Prop :=
  let d := r.1.bmds_list.getD i default
  d.total_sectors = dpre.total_sectors ∧
  (r.2 = 1 ↔ d.total_sectors ≤ d.cur_dirty) ∧
  (match found with
   | none => dpre.total_sectors ≤ d.cur_dirty ∧ d.dirty = dpre.dirty ∧ r.2 = 1
   | some s => d.cur_dirty = s ∧ s / BDRV_SECTORS_PER_DIRTY_CHUNK ∉ d.dirty ∧
       d.dirty ⊆ dpre.dirty ∧ r.2 = 0)

/-- One engine operation: the transitions between the observation points named
by the spec (setup, a read-completion callback, a queue flush, one bulk step,
one dirty step).  Clock values and the rate-limit oracle are carried by the
operation. -/
inductive EngineOp where
  | setup (devs : List BlkMigDevState) (rl : Nat → Bool) (now : ℚ)
  | readCb (k : Nat) (ret : Int) (now : ℚ)
  | flushQ (rl : Nat → Bool)
  | bulkStep (i : Nat) (now : ℚ)
  | dirtyStep (i : Nat) (is_async : Bool) (now : ℚ)

/-- Apply one engine operation to the engine state.  A `readCb` completes the
`k`-th outstanding async read (completion order is arbitrary): the block layer
retires the aiocb and runs `blk_mig_read_cb`. -/
def applyOp : EngineOp → BlkMigState → BlkMigState
  | EngineOp.setup devs rl now, st => (block_save_setup st devs rl now).1
  | EngineOp.readCb k ret now, st =>
    if k < st.inflight.length then
      blk_mig_read_cb_step { st with inflight := st.inflight.eraseIdx k }
        (st.inflight.getD k default) ret now
    else st
  | EngineOp.flushQ rl, st => (flush_blks st rl).1
  | EngineOp.bulkStep i now, st => (mig_save_device_bulk st i now).1
  | EngineOp.dirtyStep i a now, st => (mig_save_device_dirty st i a now).1

/-- Validity of an operation in a state: a completion callback must refer to
an outstanding read, and setup runs on a fresh or cleaned-up session (no
queued blocks, no in-flight reads — guaranteed by the lifecycle: a previous
session ends in `blk_mig_cleanup`). -/
def opValid : EngineOp → BlkMigState → Prop
  | EngineOp.setup _ _ _, st => st.blk_list = [] ∧ st.inflight = []
  | EngineOp.readCb k _ _, st => k < st.inflight.length
  | EngineOp.flushQ _, _ => True
  | EngineOp.bulkStep _ _, _ => True
  | EngineOp.dirtyStep _ _ _, _ => True

/-- Whether an operation is the setup hook (which starts a new session and
resets the `transferred` counter). -/
def isSetup : EngineOp → Bool
  | EngineOp.setup _ _ _ => true
  | _ => false

/-- Pipeline-counter invariant: the pending queue length equals `read_done`,
both pipeline counters are non-negative, and the in-flight list length equals
`submitted` (the strengthening that makes `submitted ≥ 0` inductive: the
`assert(submitted >= 0)` in `blk_mig_read_cb` holds because each callback
retires one outstanding read). -/
def EngineInv (st : BlkMigState) : Prop :=
  st.blk_list.length = st.read_done.toNat ∧ 0 ≤ st.read_done ∧
  st.inflight.length = st.submitted.toNat ∧ 0 ≤ st.submitted

/-! ## Concrete states used to instantiate and refute claims -/

/-- One-sector device `a`, all-zero content, fully allocated. -/
def smallDev : BlkMigDevState :=
  { device_name := [97], content := fun _ => 0, allocated := [true], total_sectors := 1,
    dirty := ∅, aio_bitmap := ∅, bulk_completed := false, shared_base := false,
    sparse_enable := false, cur_sector := 0, cur_dirty := 0, completed_sectors := 0 }

/-- An all-zero chunk buffer destined for `smallDev`. -/
def zeroBlk : BlkMigBlock :=
  { devIdx := 0, sector := 0, nr_sectors := 1, buf := List.replicate BLOCK_SIZE 0, ret := 0 }

/-- A chunk buffer that is not all zero. -/
def oneBlk : BlkMigBlock :=
  { devIdx := 0, sector := 0, nr_sectors := 1, buf := List.replicate BLOCK_SIZE 1, ret := 0 }

/-- Engine state with one registered device whose single chunk is dirty. -/
def dirtyChunkState : BlkMigState :=
  { (default : BlkMigState) with bmds_list := [{ smallDev with dirty := {0} }] }

/-- Engine state with one registered clean device in its bulk phase. -/
def bulkPhaseState : BlkMigState :=
  { (default : BlkMigState) with bmds_list := [smallDev] }

/-- Engine state after the bulk phase with no dirty chunks anywhere. -/
def noDirtyState : BlkMigState :=
  { (default : BlkMigState) with
    bmds_list := [{ smallDev with bulk_completed := true }],
    bulk_completed := true }

/-- Engine state whose queued head block completed with result `-5`. -/
def errHeadState : BlkMigState :=
  { (default : BlkMigState) with
    bmds_list := [smallDev],
    blk_list := [{ zeroBlk with ret := -5 }],
    read_done := 1 }

/-- Engine state used to exercise the convergence test: bulk phase done, one
dirty chunk, one completed read in one time unit. -/
def stage2State : BlkMigState :=
  { (default : BlkMigState) with
    bulk_completed := true,
    bmds_list := [{ smallDev with dirty := {0} }],
    reads := 1, total_time := 1 }

/-- The block submitted by a dirty step on `dirtyChunkState`: 512 zero bytes
covering chunk 0 of its one-sector device. -/
def c4Blk : BlkMigBlock :=
  { devIdx := 0, sector := 0, nr_sectors := 1,
    buf := readBuf (fun _ => 0) 0 1, ret := 0 }


/-! ## Helper lemmas -/

theorem header_mod (s f : Nat) (hf : f < 512) : ((s <<< 9) ||| f) % 512 = f := by
  have h512 : (512 : Nat) = 2 ^ 9 := by norm_num
  apply Nat.eq_of_testBit_eq
  intro i
  rw [h512, Nat.testBit_mod_two_pow, Nat.testBit_lor, Nat.testBit_shiftLeft]
  rcases Nat.lt_or_ge i 9 with hi | hi
  · have h9 : ¬ (i ≥ 9) := Nat.not_le.2 hi
    simp [hi, h9]
  · have hfi : f.testBit i = false :=
      Nat.testBit_lt_two_pow (lt_of_lt_of_le (h512 ▸ hf) (Nat.pow_le_pow_right (by norm_num) hi))
    have h9 : ¬ (i < 9) := Nat.not_lt.2 hi
    simp [h9, hfi]

theorem header_div (s f : Nat) (hf : f < 512) : ((s <<< 9) ||| f) / 512 = s := by
  have h512 : ((s <<< 9) ||| f) / 512 = ((s <<< 9) ||| f) >>> 9 := by
    rw [Nat.shiftRight_eq_div_pow]
  rw [h512]
  apply Nat.eq_of_testBit_eq
  intro i
  rw [Nat.testBit_shiftRight, Nat.testBit_lor, Nat.testBit_shiftLeft]
  have h29 : (512 : Nat) = 2 ^ 9 := by norm_num
  have hfi : f.testBit (9 + i) = false :=
    Nat.testBit_lt_two_pow
      (lt_of_lt_of_le (h29 ▸ hf) (Nat.pow_le_pow_right (by norm_num) (Nat.le_add_right 9 i)))
  have h9 : 9 + i ≥ 9 := Nat.le_add_right 9 i
  simp [h9, hfi, Nat.add_sub_cancel_left]

theorem is_zero_blk_iff (l : List Nat) : is_zero_blk l = true ↔ ∀ b ∈ l, b = 0 := by
  simp [is_zero_blk, List.all_eq_true]

theorem is_zero_blk_replicate_zero (n : Nat) : is_zero_blk (List.replicate n 0) = true := by
  rw [is_zero_blk_iff]
  intro b hb
  exact List.eq_of_mem_replicate hb

theorem is_zero_blk_replicate_one : is_zero_blk (List.replicate BLOCK_SIZE 1) = false := by
  have h : BLOCK_SIZE = 1048575 + 1 := by norm_num [BLOCK_SIZE, BDRV_SECTORS_PER_DIRTY_CHUNK,
    BDRV_SECTOR_BITS, Nat.shiftLeft_eq]
  unfold is_zero_blk
  rw [h, List.replicate_succ, List.all_cons,
    show ((1 : Nat) == 0) = false from rfl, Bool.false_and]

theorem take_of_is_zero_blk (l : List Nat) (h : is_zero_blk l = true) (m : Nat) :
    l.take m = List.replicate (min m l.length) 0 := by
  have hl : l = List.replicate l.length 0 :=
    List.eq_replicate_of_mem ((is_zero_blk_iff l).1 h)
  conv_lhs => rw [hl]
  rw [List.take_replicate]

theorem spc_pos : 0 < BDRV_SECTORS_PER_DIRTY_CHUNK := by
  norm_num [BDRV_SECTORS_PER_DIRTY_CHUNK]

theorem list_getD_set_self {α : Type _} (l : List α) (i : Nat) (v d : α) (h : i < l.length) :
    (l.set i v).getD i d = v := by
  rw [List.getD_eq_getElem?_getD, List.getElem?_set_self h]
  rfl

theorem list_getD_set_ne {α : Type _} (l : List α) (j i : Nat) (v d : α) (h : j ≠ i) :
    (l.set j v).getD i d = l.getD i d := by
  rw [List.getD_eq_getElem?_getD, List.getElem?_set_ne h, ← List.getD_eq_getElem?_getD]

@[simp] theorem maybeResetTimer_bmds_list (st : BlkMigState) (now : ℚ) :
    (maybeResetTimer st now).bmds_list = st.bmds_list := by
  unfold maybeResetTimer
  split <;> rfl

@[simp] theorem maybeResetTimer_inflight (st : BlkMigState) (now : ℚ) :
    (maybeResetTimer st now).inflight = st.inflight := by
  unfold maybeResetTimer
  split <;> rfl

@[simp] theorem maybeResetTimer_submitted (st : BlkMigState) (now : ℚ) :
    (maybeResetTimer st now).submitted = st.submitted := by
  unfold maybeResetTimer
  split <;> rfl

@[simp] theorem maybeResetTimer_blk_list (st : BlkMigState) (now : ℚ) :
    (maybeResetTimer st now).blk_list = st.blk_list := by
  unfold maybeResetTimer
  split <;> rfl

@[simp] theorem maybeResetTimer_read_done (st : BlkMigState) (now : ℚ) :
    (maybeResetTimer st now).read_done = st.read_done := by
  unfold maybeResetTimer
  split <;> rfl

@[simp] theorem maybeResetTimer_transferred (st : BlkMigState) (now : ℚ) :
    (maybeResetTimer st now).transferred = st.transferred := by
  unfold maybeResetTimer
  split <;> rfl

@[simp] theorem maybeResetTimer_output (st : BlkMigState) (now : ℚ) :
    (maybeResetTimer st now).output = st.output := by
  unfold maybeResetTimer
  split <;> rfl

@[simp] theorem updDev_bmds_length (st : BlkMigState) (i : Nat) (f : BlkMigDevState → BlkMigDevState) :
    (updDev st i f).bmds_list.length = st.bmds_list.length := by
  simp [updDev]

@[simp] theorem updDev_blk_list (st : BlkMigState) (i : Nat) (f : BlkMigDevState → BlkMigDevState) :
    (updDev st i f).blk_list = st.blk_list := rfl

@[simp] theorem updDev_inflight (st : BlkMigState) (i : Nat) (f : BlkMigDevState → BlkMigDevState) :
    (updDev st i f).inflight = st.inflight := rfl

@[simp] theorem updDev_submitted (st : BlkMigState) (i : Nat) (f : BlkMigDevState → BlkMigDevState) :
    (updDev st i f).submitted = st.submitted := rfl

@[simp] theorem updDev_read_done (st : BlkMigState) (i : Nat) (f : BlkMigDevState → BlkMigDevState) :
    (updDev st i f).read_done = st.read_done := rfl

@[simp] theorem updDev_transferred (st : BlkMigState) (i : Nat) (f : BlkMigDevState → BlkMigDevState) :
    (updDev st i f).transferred = st.transferred := rfl

@[simp] theorem updDev_output (st : BlkMigState) (i : Nat) (f : BlkMigDevState → BlkMigDevState) :
    (updDev st i f).output = st.output := rfl

theorem updDev_getD_self (st : BlkMigState) (i : Nat) (f : BlkMigDevState → BlkMigDevState)
    (h : i < st.bmds_list.length) :
    (updDev st i f).bmds_list.getD i default = f (st.bmds_list.getD i default) := by
  unfold updDev
  exact list_getD_set_self _ _ _ _ h

theorem readCb_bmds_length (st : BlkMigState) (b : BlkMigBlock) (r : Int) (t : ℚ) :
    (blk_mig_read_cb_step st b r t).bmds_list.length = st.bmds_list.length := by
  simp [blk_mig_read_cb_step]

theorem readCb_scan_fields (st : BlkMigState) (b : BlkMigBlock) (r : Int) (t : ℚ) (i : Nat) :
    ((blk_mig_read_cb_step st b r t).bmds_list.getD i default).dirty =
        (st.bmds_list.getD i default).dirty ∧
    ((blk_mig_read_cb_step st b r t).bmds_list.getD i default).total_sectors =
        (st.bmds_list.getD i default).total_sectors ∧
    ((blk_mig_read_cb_step st b r t).bmds_list.getD i default).cur_dirty =
        (st.bmds_list.getD i default).cur_dirty := by
  simp only [blk_mig_read_cb_step]
  by_cases hlt : b.devIdx < st.bmds_list.length
  · by_cases hij : b.devIdx = i
    · subst hij
      rw [list_getD_set_self st.bmds_list b.devIdx
        (bmds_set_aio_inflight (st.bmds_list.getD b.devIdx default) b.sector b.nr_sectors false)
        default hlt]
      exact ⟨rfl, rfl, rfl⟩
    · rw [list_getD_set_ne st.bmds_list b.devIdx i
        (bmds_set_aio_inflight (st.bmds_list.getD b.devIdx default) b.sector b.nr_sectors false)
        default hij]
      exact ⟨rfl, rfl, rfl⟩
  · rw [List.set_eq_of_length_le (Nat.le_of_not_lt hlt)]
    exact ⟨rfl, rfl, rfl⟩

theorem foldl_readCb_scan (now : ℚ) (l : List BlkMigBlock) :
    ∀ (st : BlkMigState) (i : Nat),
    ((l.foldl (fun s b => blk_mig_read_cb_step s b 0 now) st).bmds_list.getD i default).dirty =
        (st.bmds_list.getD i default).dirty ∧
    ((l.foldl (fun s b => blk_mig_read_cb_step s b 0 now) st).bmds_list.getD i
        default).total_sectors = (st.bmds_list.getD i default).total_sectors ∧
    ((l.foldl (fun s b => blk_mig_read_cb_step s b 0 now) st).bmds_list.getD i
        default).cur_dirty = (st.bmds_list.getD i default).cur_dirty ∧
    (l.foldl (fun s b => blk_mig_read_cb_step s b 0 now) st).bmds_list.length =
        st.bmds_list.length := by
  induction l with
  | nil => exact fun st i => ⟨rfl, rfl, rfl, rfl⟩
  | cons b l ih =>
    intro st i
    have h1 := readCb_scan_fields st b 0 now i
    have h2 := ih (blk_mig_read_cb_step st b 0 now) i
    have h3 := readCb_bmds_length st b 0 now
    simp only [List.foldl_cons]
    exact ⟨h2.1.trans h1.1, h2.2.1.trans h1.2.1, h2.2.2.1.trans h1.2.2, h2.2.2.2.trans h3⟩

theorem drain_scan_fields (st : BlkMigState) (now : ℚ) (i : Nat) :
    ((drain_all st now).bmds_list.getD i default).dirty =
        (st.bmds_list.getD i default).dirty ∧
    ((drain_all st now).bmds_list.getD i default).total_sectors =
        (st.bmds_list.getD i default).total_sectors ∧
    ((drain_all st now).bmds_list.getD i default).cur_dirty =
        (st.bmds_list.getD i default).cur_dirty ∧
    (drain_all st now).bmds_list.length = st.bmds_list.length := by
  unfold drain_all
  exact foldl_readCb_scan now st.inflight { st with inflight := [] } i

theorem self_mem_chunkRange (sector nr : Nat) (h : 1 ≤ nr) :
    sector / BDRV_SECTORS_PER_DIRTY_CHUNK ∈ chunkRange sector nr := by
  unfold chunkRange
  rw [Finset.mem_Icc]
  exact ⟨le_refl _, Nat.div_le_div_right (by omega)⟩

theorem ite_one_eq_one_iff (p : Prop) [Decidable p] : ((if p then (1 : Int) else 0) = 1 ↔ p) := by
  split <;> simp [*]

theorem dirty_fuel_sufficient (total cur : Nat) :
    total ≤ cur + ((total - cur) / BDRV_SECTORS_PER_DIRTY_CHUNK + 1) *
      BDRV_SECTORS_PER_DIRTY_CHUNK := by
  simp only [BDRV_SECTORS_PER_DIRTY_CHUNK]
  omega


theorem dirtyCopyChunk_spec (st1 : BlkMigState) (i : Nat) (sector : Nat) (is_async : Bool)
    (now : ℚ) (hi : i < st1.bmds_list.length)
    (hlt : sector < (st1.bmds_list.getD i default).total_sectors) :
    ((dirtyCopyChunk st1 i sector is_async now).1.bmds_list.getD i default).total_sectors =
        (st1.bmds_list.getD i default).total_sectors ∧
    ((dirtyCopyChunk st1 i sector is_async now).1.bmds_list.getD i default).cur_dirty =
        (st1.bmds_list.getD i default).cur_dirty ∧
    sector / BDRV_SECTORS_PER_DIRTY_CHUNK ∉
        ((dirtyCopyChunk st1 i sector is_async now).1.bmds_list.getD i default).dirty ∧
    ((dirtyCopyChunk st1 i sector is_async now).1.bmds_list.getD i default).dirty ⊆
        (st1.bmds_list.getD i default).dirty ∧
    (dirtyCopyChunk st1 i sector is_async now).2 =
      (if (st1.bmds_list.getD i default).total_sectors ≤
          (st1.bmds_list.getD i default).cur_dirty then 1 else 0) := by
  set d1 := st1.bmds_list.getD i default with hd1
  set nr := (if d1.total_sectors - sector < BDRV_SECTORS_PER_DIRTY_CHUNK then
      d1.total_sectors - sector else BDRV_SECTORS_PER_DIRTY_CHUNK) with hnrd
  have hnr : 1 ≤ nr := by
    rw [hnrd]
    split
    · omega
    · exact spc_pos
  set blk : BlkMigBlock :=
    { devIdx := i, sector := sector, nr_sectors := nr,
      buf := readBuf d1.content sector nr, ret := 0 } with hblk
  have hmem : sector / BDRV_SECTORS_PER_DIRTY_CHUNK ∉ d1.dirty \ chunkRange sector nr := by
    rw [Finset.mem_sdiff]
    intro hc
    exact hc.2 (self_mem_chunkRange sector nr hnr)
  cases is_async
  case false =>
    have he : dirtyCopyChunk st1 i sector false now =
        dirtyScanRet (updDev ({ st1 with output := st1.output ++ blk_send d1 blk } : BlkMigState)
          i (fun d => bdrv_reset_dirty d sector nr)) i := rfl
    rw [he]
    have hi2 : i < ({ st1 with output := st1.output ++ blk_send d1 blk } :
        BlkMigState).bmds_list.length := hi
    have hg3 : (updDev ({ st1 with output := st1.output ++ blk_send d1 blk } : BlkMigState)
        i (fun d => bdrv_reset_dirty d sector nr)).bmds_list.getD i default =
        bdrv_reset_dirty d1 sector nr := by
      rw [updDev_getD_self _ _ _ hi2]
    simp only [dirtyScanRet, hg3]
    exact ⟨rfl, rfl, hmem, Finset.sdiff_subset, rfl⟩
  case true =>
    have he : dirtyCopyChunk st1 i sector true now =
        dirtyScanRet (updDev (updDev ({ maybeResetTimer st1 now with
            inflight := (maybeResetTimer st1 now).inflight ++ [blk],
            submitted := (maybeResetTimer st1 now).submitted + 1 } : BlkMigState) i
          (fun d => bmds_set_aio_inflight d sector nr true)) i
          (fun d => bdrv_reset_dirty d sector nr)) i := rfl
    rw [he]
    have hlb : ({ maybeResetTimer st1 now with
        inflight := (maybeResetTimer st1 now).inflight ++ [blk],
        submitted := (maybeResetTimer st1 now).submitted + 1 } : BlkMigState).bmds_list =
        st1.bmds_list := maybeResetTimer_bmds_list st1 now
    have hi_stb : i < ({ maybeResetTimer st1 now with
        inflight := (maybeResetTimer st1 now).inflight ++ [blk],
        submitted := (maybeResetTimer st1 now).submitted + 1 } : BlkMigState).bmds_list.length := by
      rw [hlb]
      exact hi
    have hg2 : (updDev ({ maybeResetTimer st1 now with
        inflight := (maybeResetTimer st1 now).inflight ++ [blk],
        submitted := (maybeResetTimer st1 now).submitted + 1 } : BlkMigState) i
        (fun d => bmds_set_aio_inflight d sector nr true)).bmds_list.getD i default =
        bmds_set_aio_inflight d1 sector nr true := by
      rw [updDev_getD_self _ _ _ hi_stb]
      unfold updDev at *
      rw [hlb, ← hd1]
    have hi_st2 : i < (updDev ({ maybeResetTimer st1 now with
        inflight := (maybeResetTimer st1 now).inflight ++ [blk],
        submitted := (maybeResetTimer st1 now).submitted + 1 } : BlkMigState) i
        (fun d => bmds_set_aio_inflight d sector nr true)).bmds_list.length := by
      rw [updDev_bmds_length, hlb]
      exact hi
    have hg3 : (updDev (updDev ({ maybeResetTimer st1 now with
        inflight := (maybeResetTimer st1 now).inflight ++ [blk],
        submitted := (maybeResetTimer st1 now).submitted + 1 } : BlkMigState) i
        (fun d => bmds_set_aio_inflight d sector nr true)) i
        (fun d => bdrv_reset_dirty d sector nr)).bmds_list.getD i default =
        bdrv_reset_dirty (bmds_set_aio_inflight d1 sector nr true) sector nr := by
      rw [updDev_getD_self _ _ _ hi_st2, hg2]
    simp only [dirtyScanRet, hg3]
    exact ⟨rfl, rfl, hmem, Finset.sdiff_subset, rfl⟩


theorem dirtyScanPost_congr (d d2 : BlkMigDevState) (h1 : d.total_sectors = d2.total_sectors)
    (h2 : d.dirty = d2.dirty) (found : Option Nat) (r : BlkMigState × Int) (i : Nat)
    (h : dirtyScanPost d found r i) : dirtyScanPost d2 found r i := by
  unfold dirtyScanPost at *
  rw [← h1, ← h2]
  exact h

theorem dirtyScanLoop_spec (i : Nat) (is_async : Bool) (now : ℚ) :
    ∀ (fuel : Nat) (st : BlkMigState) (sector : Nat),
      i < st.bmds_list.length →
      (st.bmds_list.getD i default).cur_dirty = sector →
      (st.bmds_list.getD i default).total_sectors ≤
        sector + fuel * BDRV_SECTORS_PER_DIRTY_CHUNK →
      dirtyScanPost (st.bmds_list.getD i default)
        (firstDirtyAux (st.bmds_list.getD i default).dirty
          (st.bmds_list.getD i default).total_sectors fuel sector)
        (dirtyScanLoop i is_async now fuel st sector) i := by
  intro fuel
  induction fuel with
  | zero =>
    intro st sector hi hcur hfuel
    have htot : (st.bmds_list.getD i default).total_sectors ≤
        (st.bmds_list.getD i default).cur_dirty := by
      rw [hcur]
      simpa using hfuel
    simp only [dirtyScanLoop, firstDirtyAux, dirtyScanPost, dirtyScanRet]
    rw [if_pos htot]
    simp only [List.getD_eq_getElem?_getD] at htot
    simp [htot]
  | succ fuel ih =>
    intro st sector hi hcur hfuel
    by_cases hlt : sector < (st.bmds_list.getD i default).total_sectors
    · simp only [dirtyScanLoop, firstDirtyAux]
      rw [if_pos hlt, if_pos hlt]
      set st1 := (if bmds_aio_inflight (st.bmds_list.getD i default) sector then
        drain_all st now else st) with hst1
      have hf1 : st1.bmds_list.length = st.bmds_list.length ∧
          (st1.bmds_list.getD i default).dirty = (st.bmds_list.getD i default).dirty ∧
          (st1.bmds_list.getD i default).total_sectors =
            (st.bmds_list.getD i default).total_sectors ∧
          (st1.bmds_list.getD i default).cur_dirty =
            (st.bmds_list.getD i default).cur_dirty := by
        rw [hst1]
        split
        · have h := drain_scan_fields st now i
          exact ⟨h.2.2.2, h.1, h.2.1, h.2.2.1⟩
        · exact ⟨rfl, rfl, rfl, rfl⟩
      by_cases hd : sector / BDRV_SECTORS_PER_DIRTY_CHUNK ∈ (st.bmds_list.getD i default).dirty
      · have hbd : bdrv_get_dirty (st1.bmds_list.getD i default) sector = true := by
          unfold bdrv_get_dirty
          rw [hf1.2.1]
          simpa using hd
        rw [if_pos hd, if_pos hbd]
        have hi1 : i < st1.bmds_list.length := by
          rw [hf1.1]
          exact hi
        have hlt1 : sector < (st1.bmds_list.getD i default).total_sectors := by
          rw [hf1.2.2.1]
          exact hlt
        have hc := dirtyCopyChunk_spec st1 i sector is_async now hi1 hlt1
        have hcur1 : (st1.bmds_list.getD i default).cur_dirty = sector := by
          rw [hf1.2.2.2]
          exact hcur
        have hret : (dirtyCopyChunk st1 i sector is_async now).2 = 0 := by
          rw [hc.2.2.2.2, if_neg]
          rw [hf1.2.2.1, hcur1]
          omega
        have hteq : ((dirtyCopyChunk st1 i sector is_async now).1.bmds_list.getD i
            default).total_sectors = (st.bmds_list.getD i default).total_sectors :=
          hc.1.trans hf1.2.2.1
        have hceq : ((dirtyCopyChunk st1 i sector is_async now).1.bmds_list.getD i
            default).cur_dirty = sector :=
          hc.2.1.trans hcur1
        simp only [dirtyScanPost]
        refine ⟨hteq, ?_, hceq, hc.2.2.1, hf1.2.1 ▸ hc.2.2.2.1, hret⟩
        rw [hret, hteq, hceq]
        constructor
        · intro h0
          exact absurd h0 (by norm_num)
        · intro h0
          omega
      · have hbd : ¬ (bdrv_get_dirty (st1.bmds_list.getD i default) sector = true) := by
          unfold bdrv_get_dirty
          rw [hf1.2.1]
          simpa using hd
        rw [if_neg hd, if_neg hbd]
        have hi1 : i < st1.bmds_list.length := by
          rw [hf1.1]
          exact hi
        have hi2 : i < (updDev st1 i (fun d =>
            { d with cur_dirty := sector + BDRV_SECTORS_PER_DIRTY_CHUNK })).bmds_list.length := by
          rw [updDev_bmds_length, hf1.1]
          exact hi
        have hg2 : (updDev st1 i (fun d =>
            { d with cur_dirty := sector + BDRV_SECTORS_PER_DIRTY_CHUNK })).bmds_list.getD i
            default = { st1.bmds_list.getD i default with
              cur_dirty := sector + BDRV_SECTORS_PER_DIRTY_CHUNK } :=
          updDev_getD_self _ _ _ hi1
        have hcur2 : ((updDev st1 i (fun d =>
            { d with cur_dirty := sector + BDRV_SECTORS_PER_DIRTY_CHUNK })).bmds_list.getD i
            default).cur_dirty = sector + BDRV_SECTORS_PER_DIRTY_CHUNK := by
          rw [hg2]
        have htot2 : ((updDev st1 i (fun d =>
            { d with cur_dirty := sector + BDRV_SECTORS_PER_DIRTY_CHUNK })).bmds_list.getD i
            default).total_sectors = (st.bmds_list.getD i default).total_sectors := by
          rw [hg2]
          exact hf1.2.2.1
        have hdirty2 : ((updDev st1 i (fun d =>
            { d with cur_dirty := sector + BDRV_SECTORS_PER_DIRTY_CHUNK })).bmds_list.getD i
            default).dirty = (st.bmds_list.getD i default).dirty := by
          rw [hg2]
          exact hf1.2.1
        have hfuel2 : ((updDev st1 i (fun d =>
            { d with cur_dirty := sector + BDRV_SECTORS_PER_DIRTY_CHUNK })).bmds_list.getD i
            default).total_sectors ≤ (sector + BDRV_SECTORS_PER_DIRTY_CHUNK) +
              fuel * BDRV_SECTORS_PER_DIRTY_CHUNK := by
          rw [htot2]
          have hdist : (fuel + 1) * BDRV_SECTORS_PER_DIRTY_CHUNK =
              fuel * BDRV_SECTORS_PER_DIRTY_CHUNK + BDRV_SECTORS_PER_DIRTY_CHUNK :=
            Nat.succ_mul fuel BDRV_SECTORS_PER_DIRTY_CHUNK
          rw [hdist] at hfuel
          omega
        have hspec := ih (updDev st1 i (fun d =>
          { d with cur_dirty := sector + BDRV_SECTORS_PER_DIRTY_CHUNK }))
          (sector + BDRV_SECTORS_PER_DIRTY_CHUNK) hi2 hcur2 hfuel2
        rw [htot2, hdirty2] at hspec
        exact dirtyScanPost_congr _ _ htot2 hdirty2 _ _ _ hspec
    · have htot : (st.bmds_list.getD i default).total_sectors ≤
          (st.bmds_list.getD i default).cur_dirty := by
        rw [hcur]
        omega
      simp only [dirtyScanLoop, firstDirtyAux, dirtyScanPost, dirtyScanRet]
      rw [if_neg hlt, if_neg hlt, if_pos htot]
      simp only [List.getD_eq_getElem?_getD] at htot
      simp [htot]


theorem list_getD_oob {α : Type _} (l : List α) (i : Nat) (d : α) (h : l.length ≤ i) :
    l.getD i d = d := by
  rw [List.getD_eq_getElem?_getD, List.getElem?_eq_none h]
  rfl

theorem foldl_readCb_inflight (now : ℚ) (l : List BlkMigBlock) :
    ∀ st : BlkMigState,
    (l.foldl (fun s b => blk_mig_read_cb_step s b 0 now) st).inflight = st.inflight := by
  induction l with
  | nil => exact fun st => rfl
  | cons b l ih =>
    intro st
    simp only [List.foldl_cons]
    rw [ih]
    rfl

theorem drain_all_inflight (st : BlkMigState) (now : ℚ) :
    (drain_all st now).inflight = [] := by
  unfold drain_all
  rw [foldl_readCb_inflight]

theorem dirtyCopyChunk_inflight (st1 : BlkMigState) (i : Nat) (sector : Nat) (now : ℚ)
    (hi : i < st1.bmds_list.length) :
    ∀ b : BlkMigBlock, b ∈ (dirtyCopyChunk st1 i sector true now).1.inflight →
      b ∉ st1.inflight →
      b.devIdx = i ∧ ∀ c ∈ chunkRange b.sector b.nr_sectors,
        c ∈ ((dirtyCopyChunk st1 i sector true now).1.bmds_list.getD i default).aio_bitmap := by
  set d1 := st1.bmds_list.getD i default with hd1
  set nr := (if d1.total_sectors - sector < BDRV_SECTORS_PER_DIRTY_CHUNK then
      d1.total_sectors - sector else BDRV_SECTORS_PER_DIRTY_CHUNK) with hnrd
  set blk : BlkMigBlock :=
    { devIdx := i, sector := sector, nr_sectors := nr,
      buf := readBuf d1.content sector nr, ret := 0 } with hblk
  have he : dirtyCopyChunk st1 i sector true now =
      dirtyScanRet (updDev (updDev ({ maybeResetTimer st1 now with
          inflight := (maybeResetTimer st1 now).inflight ++ [blk],
          submitted := (maybeResetTimer st1 now).submitted + 1 } : BlkMigState) i
        (fun d => bmds_set_aio_inflight d sector nr true)) i
        (fun d => bdrv_reset_dirty d sector nr)) i := rfl
  have hinf : (dirtyCopyChunk st1 i sector true now).1.inflight = st1.inflight ++ [blk] := by
    rw [he]
    show ({ maybeResetTimer st1 now with
        inflight := (maybeResetTimer st1 now).inflight ++ [blk],
        submitted := (maybeResetTimer st1 now).submitted + 1 } : BlkMigState).inflight =
      st1.inflight ++ [blk]
    rw [maybeResetTimer_inflight]
  have hlb : ({ maybeResetTimer st1 now with
      inflight := (maybeResetTimer st1 now).inflight ++ [blk],
      submitted := (maybeResetTimer st1 now).submitted + 1 } : BlkMigState).bmds_list =
      st1.bmds_list := maybeResetTimer_bmds_list st1 now
  have hi_stb : i < ({ maybeResetTimer st1 now with
      inflight := (maybeResetTimer st1 now).inflight ++ [blk],
      submitted := (maybeResetTimer st1 now).submitted + 1 } : BlkMigState).bmds_list.length := by
    rw [hlb]
    exact hi
  have hg2 : (updDev ({ maybeResetTimer st1 now with
      inflight := (maybeResetTimer st1 now).inflight ++ [blk],
      submitted := (maybeResetTimer st1 now).submitted + 1 } : BlkMigState) i
      (fun d => bmds_set_aio_inflight d sector nr true)).bmds_list.getD i default =
      bmds_set_aio_inflight d1 sector nr true := by
    rw [updDev_getD_self _ _ _ hi_stb]
    unfold updDev at *
    rw [hlb, ← hd1]
  have hi_st2 : i < (updDev ({ maybeResetTimer st1 now with
      inflight := (maybeResetTimer st1 now).inflight ++ [blk],
      submitted := (maybeResetTimer st1 now).submitted + 1 } : BlkMigState) i
      (fun d => bmds_set_aio_inflight d sector nr true)).bmds_list.length := by
    rw [updDev_bmds_length, hlb]
    exact hi
  have haio : ((dirtyCopyChunk st1 i sector true now).1.bmds_list.getD i default).aio_bitmap =
      d1.aio_bitmap ∪ chunkRange sector nr := by
    rw [he]
    show ((updDev (updDev ({ maybeResetTimer st1 now with
        inflight := (maybeResetTimer st1 now).inflight ++ [blk],
        submitted := (maybeResetTimer st1 now).submitted + 1 } : BlkMigState) i
        (fun d => bmds_set_aio_inflight d sector nr true)) i
        (fun d => bdrv_reset_dirty d sector nr)).bmds_list.getD i default).aio_bitmap =
      d1.aio_bitmap ∪ chunkRange sector nr
    rw [updDev_getD_self _ _ _ hi_st2, hg2]
    rfl
  intro b hmem hnot
  rw [hinf] at hmem
  rcases List.mem_append.1 hmem with hmem1 | hmem2
  · exact absurd hmem1 hnot
  · have hb : b = blk := List.mem_singleton.1 hmem2
    subst hb
    refine ⟨rfl, fun c hc => ?_⟩
    rw [haio]
    exact Finset.mem_union_right _ hc

theorem dirtyScanLoop_inflight (i : Nat) (now : ℚ) :
    ∀ (fuel : Nat) (st : BlkMigState) (sector : Nat),
      i < st.bmds_list.length →
      ∀ b : BlkMigBlock, b ∈ (dirtyScanLoop i true now fuel st sector).1.inflight →
        b ∉ st.inflight →
        b.devIdx = i ∧ ∀ c ∈ chunkRange b.sector b.nr_sectors,
          c ∈ ((dirtyScanLoop i true now fuel st sector).1.bmds_list.getD i
            default).aio_bitmap := by
  intro fuel
  induction fuel with
  | zero =>
    intro st sector hi b hmem hnot
    exact absurd hmem hnot
  | succ fuel ih =>
    intro st sector hi b hmem hnot
    by_cases hlt : sector < (st.bmds_list.getD i default).total_sectors
    · rw [show dirtyScanLoop i true now (fuel + 1) st sector =
          (let d := st.bmds_list.getD i default
           let st1 := if bmds_aio_inflight d sector then drain_all st now else st
           let d1 := st1.bmds_list.getD i default
           if bdrv_get_dirty d1 sector then dirtyCopyChunk st1 i sector true now
           else dirtyScanLoop i true now fuel
             (updDev st1 i (fun d => { d with
               cur_dirty := sector + BDRV_SECTORS_PER_DIRTY_CHUNK }))
             (sector + BDRV_SECTORS_PER_DIRTY_CHUNK)) from by
        simp only [dirtyScanLoop]
        rw [if_pos hlt]] at hmem ⊢
      set st1 := (if bmds_aio_inflight (st.bmds_list.getD i default) sector then
        drain_all st now else st) with hst1
      have hlen1 : st1.bmds_list.length = st.bmds_list.length := by
        rw [hst1]
        split
        · exact (drain_scan_fields st now i).2.2.2
        · rfl
      have hi1 : i < st1.bmds_list.length := by
        rw [hlen1]
        exact hi
      have hnot1 : b ∉ st1.inflight := by
        rw [hst1]
        split
        · rw [drain_all_inflight]
          exact List.not_mem_nil b
        · exact hnot
      by_cases hbd : bdrv_get_dirty (st1.bmds_list.getD i default) sector = true
      · rw [if_pos hbd] at hmem ⊢
        exact dirtyCopyChunk_inflight st1 i sector now hi1 b hmem hnot1
      · rw [if_neg hbd] at hmem ⊢
        have hi2 : i < (updDev st1 i (fun d => { d with
            cur_dirty := sector + BDRV_SECTORS_PER_DIRTY_CHUNK })).bmds_list.length := by
          rw [updDev_bmds_length]
          exact hi1
        have hnot2 : b ∉ (updDev st1 i (fun d => { d with
            cur_dirty := sector + BDRV_SECTORS_PER_DIRTY_CHUNK })).inflight := hnot1
        exact ih _ _ hi2 b hmem hnot2
    · rw [show dirtyScanLoop i true now (fuel + 1) st sector = dirtyScanRet st i from by
        simp only [dirtyScanLoop]
        rw [if_neg hlt]] at hmem ⊢
      exact absurd hmem hnot

theorem readCb_clears_aio (st : BlkMigState) (b : BlkMigBlock) (r : Int) (t : ℚ) (c : Nat)
    (hc : c ∈ chunkRange b.sector b.nr_sectors) :
    c ∉ ((blk_mig_read_cb_step st b r t).bmds_list.getD b.devIdx default).aio_bitmap := by
  simp only [blk_mig_read_cb_step]
  by_cases hlt : b.devIdx < st.bmds_list.length
  · rw [list_getD_set_self _ _ _ _ hlt]
    simp only [bmds_set_aio_inflight]
    intro hmem
    rw [if_neg (by simp)] at hmem
    exact (Finset.mem_sdiff.1 hmem).2 hc
  · rw [List.set_eq_of_length_le (Nat.le_of_not_lt hlt),
      list_getD_oob _ _ _ (Nat.le_of_not_lt hlt)]
    exact Finset.not_mem_empty c


/-- C2 (amended): a dirty step's behaviour on device `i`.  When the scan finds
a dirty chunk (`firstDirty` yields `some s`) it is copied: the chunk's dirty
bit is reset, no dirty bit is set, and the function returns 0 with the dirty
cursor left AT `s` — not advanced past the copied chunk (the advance happens
only for clean chunks; the claim's "advanced past that chunk" is refuted by
`c2_cursor_not_advanced_counterexample`).  When no dirty chunk remains the
cursor sweeps to the device's total sectors with the dirty set untouched.  In
either case the returned code is 1 exactly when the cursor has reached the
device's total sectors, as the claim states. -/
theorem c2_dirty_step_behavior (st : BlkMigState) (i : Nat) (is_async : Bool) (now : ℚ)
    (hi : i < st.bmds_list.length) :
    dirtyScanPost (st.bmds_list.getD i default) (firstDirty (st.bmds_list.getD i default))
      (mig_save_device_dirty st i is_async now) i := by
  unfold mig_save_device_dirty firstDirty
  exact dirtyScanLoop_spec i is_async now _ st _ hi rfl (dirty_fuel_sufficient _ _)

set_option maxRecDepth 8192 in
/-- Witness for C2 on a one-chunk device whose chunk is dirty. -/
theorem c2_dirty_step_behavior_witness :
    0 < dirtyChunkState.bmds_list.length ∧
    dirtyScanPost (dirtyChunkState.bmds_list.getD 0 default)
      (firstDirty (dirtyChunkState.bmds_list.getD 0 default))
      (mig_save_device_dirty dirtyChunkState 0 true 0) 0 :=
  ⟨by decide, c2_dirty_step_behavior dirtyChunkState 0 true 0 (by decide)⟩

/-- C4 (amended): in the dirty phase, every async read submitted by
`mig_save_device_dirty` belongs to the stepped device and has the in-flight
bits of all chunks it covers set at submission; and the completion callback
`blk_mig_read_cb` clears the in-flight bits of all chunks its block covers.
(The bulk phase never sets the bit — refuted for the claim as stated by
`c4_bulk_counterexample`.) -/
theorem c4_inflight_bit_amended :
    (∀ (st : BlkMigState) (i : Nat) (now : ℚ), i < st.bmds_list.length →
      ∀ b : BlkMigBlock, b ∈ (mig_save_device_dirty st i true now).1.inflight →
        b ∉ st.inflight →
        b.devIdx = i ∧ ∀ c ∈ chunkRange b.sector b.nr_sectors,
          c ∈ ((mig_save_device_dirty st i true now).1.bmds_list.getD i default).aio_bitmap) ∧
    (∀ (st : BlkMigState) (b : BlkMigBlock) (r : Int) (t : ℚ) (c : Nat),
      c ∈ chunkRange b.sector b.nr_sectors →
      c ∉ ((blk_mig_read_cb_step st b r t).bmds_list.getD b.devIdx default).aio_bitmap) := by
  constructor
  · intro st i now hi b hmem hnot
    unfold mig_save_device_dirty at hmem ⊢
    exact dirtyScanLoop_inflight i now _ st _ hi b hmem hnot
  · intro st b r t c hc
    exact readCb_clears_aio st b r t c hc

set_option maxRecDepth 8192 in
/-- Witness for C4: the dirty-phase submission on `dirtyChunkState` yields the
in-flight block `c4Blk` whose chunk bits are set, and a completion callback
for `c4Blk` clears them again. -/
theorem c4_inflight_bit_amended_witness :
    0 < dirtyChunkState.bmds_list.length ∧
    c4Blk ∈ (mig_save_device_dirty dirtyChunkState 0 true 0).1.inflight ∧
    c4Blk ∉ dirtyChunkState.inflight ∧
    (c4Blk.devIdx = 0 ∧ ∀ c ∈ chunkRange c4Blk.sector c4Blk.nr_sectors,
      c ∈ ((mig_save_device_dirty dirtyChunkState 0 true 0).1.bmds_list.getD 0
        default).aio_bitmap) ∧
    (0 ∈ chunkRange c4Blk.sector c4Blk.nr_sectors ∧
      0 ∉ ((blk_mig_read_cb_step dirtyChunkState c4Blk 0 0).bmds_list.getD c4Blk.devIdx
        default).aio_bitmap) :=
  ⟨by decide, by decide, by decide,
   c4_inflight_bit_amended.1 dirtyChunkState 0 0 (by decide) c4Blk (by decide) (by decide),
   by decide,
   c4_inflight_bit_amended.2 dirtyChunkState c4Blk 0 0 0 (by decide)⟩


/-! ## Claims -/

/-- C5: `blk_send` elides a frame entirely (emits nothing to the transport)
iff the chunk buffer is all zero, the owning device's sparse flag is enabled
and the owning device's `bulk_completed` flag is still false; in every other
case a frame is emitted. -/
theorem c5_sparse_elision (d : BlkMigDevState) (blk : BlkMigBlock) :
    blk_send d blk = [] ↔
      (is_zero_blk blk.buf = true ∧ d.sparse_enable = true ∧ d.bulk_completed = false) := by
  by_cases hc : is_zero_blk blk.buf = true ∧ d.sparse_enable = true ∧ d.bulk_completed = false
  · simp [blk_send, hc]
  · simp [blk_send, hc]

/-- C6: a non-elided device-block frame is the 64-bit header
`(sector << BDRV_SECTOR_BITS) | DEVICE_BLOCK [| ZERO_BLOCK]` (the zero flag
set iff the buffer is all zero), one byte with the device-name length, the
name bytes with no trailing NUL, and then — only when `ZERO_BLOCK` is not
set — exactly `BLOCK_SIZE` bytes of payload regardless of the frame's
`nr_sectors`; when `ZERO_BLOCK` is set no payload follows and the stream is
explicitly flushed. -/
theorem c6_frame_layout (d : BlkMigDevState) (blk : BlkMigBlock)
    (hlen : blk.buf.length = BLOCK_SIZE) (hname : d.device_name.length < 256)
    (hemit : ¬(is_zero_blk blk.buf = true ∧ d.sparse_enable = true ∧ d.bulk_completed = false)) :
    blk_send d blk =
      [WireItem.put_be64 ((blk.sector <<< BDRV_SECTOR_BITS) ||| BLK_MIG_FLAG_DEVICE_BLOCK |||
          (if is_zero_blk blk.buf then BLK_MIG_FLAG_ZERO_BLOCK else 0)),
       WireItem.put_byte d.device_name.length,
       WireItem.put_buffer d.device_name] ++
      (if is_zero_blk blk.buf then [WireItem.fflush] else [WireItem.put_buffer blk.buf]) ∧
    (is_zero_blk blk.buf = false → blk.buf.length = BLOCK_SIZE) := by
  refine ⟨?_, fun _ => hlen⟩
  unfold blk_send
  rw [if_neg hemit, Nat.mod_eq_of_lt hname]

/-- Witness for C6 at a concrete non-zero buffer. -/
theorem c6_frame_layout_witness :
    oneBlk.buf.length = BLOCK_SIZE ∧ smallDev.device_name.length < 256 ∧
    ¬(is_zero_blk oneBlk.buf = true ∧ smallDev.sparse_enable = true ∧
        smallDev.bulk_completed = false) ∧
    (blk_send smallDev oneBlk =
      [WireItem.put_be64 ((oneBlk.sector <<< BDRV_SECTOR_BITS) ||| BLK_MIG_FLAG_DEVICE_BLOCK |||
          (if is_zero_blk oneBlk.buf then BLK_MIG_FLAG_ZERO_BLOCK else 0)),
       WireItem.put_byte smallDev.device_name.length,
       WireItem.put_buffer smallDev.device_name] ++
      (if is_zero_blk oneBlk.buf then [WireItem.fflush] else [WireItem.put_buffer oneBlk.buf]) ∧
    (is_zero_blk oneBlk.buf = false → oneBlk.buf.length = BLOCK_SIZE)) := by
  have h1 : oneBlk.buf.length = BLOCK_SIZE := by
    simp [oneBlk]
  have h2 : smallDev.device_name.length < 256 := by
    simp [smallDev]
  have h3 : ¬(is_zero_blk oneBlk.buf = true ∧ smallDev.sparse_enable = true ∧
      smallDev.bulk_completed = false) := by
    intro h
    have := h.2.1
    simp [smallDev] at this
  exact ⟨h1, h2, h3, c6_frame_layout smallDev oneBlk h1 h2 h3⟩

/-- C7: the convergence test `is_stage2_completed` returns true iff the bulk
phase is completed and either the remaining dirty byte count is zero or that
count divided by the measured read throughput
(`reads * BLOCK_SIZE / total_time`) is at most `max_downtime`.  The source
asserts `total_time != 0` before dividing, and `reads > 0` keeps the
rational model aligned with the long-double computation (a zero bandwidth
would make the quotient infinite there). -/
theorem c7_stage2_iff (st : BlkMigState) (md : ℚ) (ht : 0 < st.total_time)
    (hr : 0 < st.reads) :
    is_stage2_completed st md = true ↔
      (st.bulk_completed = true ∧
        (get_remaining_dirty st = 0 ∨
          (get_remaining_dirty st : ℚ) /
            (((st.reads : ℚ) * (BLOCK_SIZE : ℚ)) / st.total_time) ≤ md)) := by
  have hbw : compute_read_bwidth st = ((st.reads : ℚ) * (BLOCK_SIZE : ℚ)) / st.total_time := by
    unfold compute_read_bwidth
    ring
  unfold is_stage2_completed
  rw [hbw]
  by_cases hb : st.bulk_completed = true
  · by_cases h0 : get_remaining_dirty st = 0
    · simp [hb, h0]
    · simp [hb, h0]
  · simp [hb]

/-- Witness for C7 at a concrete state: one dirty chunk, one read completed in
one time unit, downtime budget 1. -/
theorem c7_stage2_iff_witness :
    0 < stage2State.total_time ∧ 0 < stage2State.reads ∧
    (is_stage2_completed stage2State 1 = true ↔
      (stage2State.bulk_completed = true ∧
        (get_remaining_dirty stage2State = 0 ∨
          (get_remaining_dirty stage2State : ℚ) /
            (((stage2State.reads : ℚ) * (BLOCK_SIZE : ℚ)) / stage2State.total_time) ≤ 1))) := by
  have ht : 0 < stage2State.total_time := by norm_num [stage2State]
  have hr : 0 < stage2State.reads := by norm_num [stage2State]
  exact ⟨ht, hr, c7_stage2_iff stage2State 1 ht hr⟩

/-- C9: after `block_set_params` runs with `shared` or `sparse` set, block
migration is enabled and `block_is_active` returns true, regardless of the
`blk` parameter (each of the two flags is OR'd into `blk_enable`). -/
theorem c9_shared_or_sparse_activates (p : MigrationParams) (st : BlkMigState)
    (h : p.shared = true ∨ p.sparse = true) :
    block_is_active (block_set_params p st) = true := by
  rcases p with ⟨pb, ps, pz⟩
  cases pb <;> cases ps <;> cases pz <;>
    simp_all [block_set_params, block_is_active]

/-- Witness for C9: `shared = true` with `blk = false`. -/
theorem c9_shared_or_sparse_activates_witness :
    ((⟨false, true, false⟩ : MigrationParams).shared = true ∨
      (⟨false, true, false⟩ : MigrationParams).sparse = true) ∧
    block_is_active (block_set_params ⟨false, true, false⟩ default) = true :=
  ⟨Or.inl rfl, c9_shared_or_sparse_activates ⟨false, true, false⟩ default (Or.inl rfl)⟩

/-- C10 (amended): when the transport is not over its rate limit and the head
of the pending queue carries a negative result code, `flush_blks` returns that
code and leaves the engine state unchanged — the failing block stays at the
head with its buffer not freed, and neither `read_done` nor `transferred`
moves; when the transport is already over its rate limit the loop stops first
and returns 0, also leaving the state unchanged. -/
theorem c10_flush_error_path (st : BlkMigState) (rl : Nat → Bool) (blk : BlkMigBlock)
    (rest : List BlkMigBlock) (hq : st.blk_list = blk :: rest) (hret : blk.ret < 0) :
    (rl st.transferred.toNat = false → flush_blks st rl = (st, blk.ret)) ∧
    (rl st.transferred.toNat = true → flush_blks st rl = (st, 0)) := by
  have h1 : flush_blks st rl = flushLoop rl (rest.length + 1) st := by
    unfold flush_blks
    rw [hq, List.length_cons]
  constructor <;> intro h <;>
    · rw [h1]
      simp only [flushLoop]
      rw [hq]
      simp [h, hret]

/-- Witness for C10 at a concrete queue head with result -5 and a transport
that is not rate-limited. -/
theorem c10_flush_error_path_witness :
    errHeadState.blk_list = ({ zeroBlk with ret := -5 } : BlkMigBlock) :: [] ∧
    ({ zeroBlk with ret := -5 } : BlkMigBlock).ret < 0 ∧
    (((fun _ => false) : Nat → Bool) errHeadState.transferred.toNat = false →
      flush_blks errHeadState (fun _ => false) =
        (errHeadState, ({ zeroBlk with ret := -5 } : BlkMigBlock).ret)) ∧
    (((fun _ => false) : Nat → Bool) errHeadState.transferred.toNat = true →
      flush_blks errHeadState (fun _ => false) = (errHeadState, 0)) := by
  have hq : errHeadState.blk_list = ({ zeroBlk with ret := -5 } : BlkMigBlock) :: [] := rfl
  have hret : ({ zeroBlk with ret := -5 } : BlkMigBlock).ret < 0 := by norm_num
  have h := c10_flush_error_path errHeadState (fun _ => false) _ _ hq hret
  exact ⟨hq, hret, h.1, h.2⟩

/-- C10 counterexample: with the transport already over its rate limit,
`flush_blks` on a queue whose head completed with -5 returns 0 — not the
head's result code as the claim states (the engine state is nevertheless
unchanged). -/
theorem c10_rate_limited_counterexample :
    (errHeadState.blk_list.getD 0 default).ret = -5 ∧
    (flush_blks errHeadState (fun _ => true)).2 = 0 ∧
    (flush_blks errHeadState (fun _ => true)).1 = errHeadState :=
  ⟨rfl, rfl, rfl⟩

/-- C2 counterexample: on a one-chunk device whose chunk is dirty, the dirty
step finds and copies the chunk (the dirty bit is cleared and an async read is
submitted) but returns with the dirty cursor still at sector 0 — it is not
advanced past the copied chunk as the claim states. -/
theorem c2_cursor_not_advanced_counterexample :
    bdrv_get_dirty (dirtyChunkState.bmds_list.getD 0 default) 0 = true ∧
    ((mig_save_device_dirty dirtyChunkState 0 true 0).1.bmds_list.getD 0 default).dirty = ∅ ∧
    (mig_save_device_dirty dirtyChunkState 0 true 0).1.inflight.length = 1 ∧
    ((mig_save_device_dirty dirtyChunkState 0 true 0).1.bmds_list.getD 0 default).cur_dirty = 0 ∧
    (mig_save_device_dirty dirtyChunkState 0 true 0).2 = 0 := by
  refine ⟨by decide, by decide, rfl, rfl, rfl⟩

/-- C4 counterexample: a bulk-phase submission leaves the in-flight bitmap
untouched — after `mig_save_device_bulk` submits the async read of chunk 0,
that read is outstanding but `bmds_aio_inflight` is false for its sector,
refuting the claim for the bulk phase. -/
theorem c4_bulk_counterexample :
    (mig_save_device_bulk bulkPhaseState 0 0).1.inflight.length = 1 ∧
    ((mig_save_device_bulk bulkPhaseState 0 0).1.inflight.getD 0 default).sector = 0 ∧
    bmds_aio_inflight ((mig_save_device_bulk bulkPhaseState 0 0).1.bmds_list.getD 0 default) 0 =
      false := by
  refine ⟨rfl, rfl, by decide⟩

theorem min_nr_eq (total s : Nat) :
    (if total - s < BDRV_SECTORS_PER_DIRTY_CHUNK then total - s
     else BDRV_SECTORS_PER_DIRTY_CHUNK) =
    min BDRV_SECTORS_PER_DIRTY_CHUNK (total - s) := by
  rcases Nat.lt_or_ge (total - s) BDRV_SECTORS_PER_DIRTY_CHUNK with h | h
  · rw [if_pos h, Nat.min_eq_right (Nat.le_of_lt h)]
  · rw [if_neg (Nat.not_lt.2 h), Nat.min_eq_left h]

theorem c1_nonzero_case (d : BlkMigDevState) (blk : BlkMigBlock)
    (devs : List (List Nat × Nat))
    (hlen : blk.buf.length = BLOCK_SIZE)
    (hname : d.device_name.length < 256)
    (hfind : findDev devs d.device_name = some d.total_sectors)
    (hs : blk.sector < d.total_sectors)
    (h0 : is_zero_blk blk.buf = false) :
    block_load (blk_send d blk ++ [WireItem.put_be64 BLK_MIG_FLAG_EOS]) devs =
      Except.ok [{ device := d.device_name,
                   sector := blk.sector,
                   nr_sectors := min BDRV_SECTORS_PER_DIRTY_CHUNK (d.total_sectors - blk.sector),
                   data := blk.buf.take
                     (min BDRV_SECTORS_PER_DIRTY_CHUNK (d.total_sectors - blk.sector) *
                       BDRV_SECTOR_SIZE) }] := by
  have hemit : ¬(is_zero_blk blk.buf = true ∧ d.sparse_enable = true ∧
      d.bulk_completed = false) := by
    simp [h0]
  have hsend : blk_send d blk =
      [WireItem.put_be64 ((blk.sector <<< 9) ||| 1),
       WireItem.put_byte d.device_name.length,
       WireItem.put_buffer d.device_name,
       WireItem.put_buffer blk.buf] := by
    unfold blk_send
    rw [if_neg hemit, Nat.mod_eq_of_lt hname, h0]
    simp only [BDRV_SECTOR_BITS, BLK_MIG_FLAG_DEVICE_BLOCK, Bool.false_eq_true, if_false,
      Nat.or_zero, List.cons_append, List.nil_append]
  have hmodA : ((blk.sector <<< 9) ||| 1) % 512 = 1 := header_mod _ _ (by norm_num)
  have hdivA : ((blk.sector <<< 9) ||| 1) / 512 = blk.sector := header_div _ _ (by norm_num)
  have htne : d.total_sectors ≠ 0 := by omega
  rw [hsend]
  unfold block_load
  simp only [List.cons_append, List.nil_append, List.length_cons, List.length_nil]
  simp only [blockLoadLoop, nextTok, hmodA, hdivA, hfind, hlen]
  norm_num [BLK_MIG_FLAG_DEVICE_BLOCK, BLK_MIG_FLAG_EOS, BLK_MIG_FLAG_PROGRESS,
    BLK_MIG_FLAG_ZERO_BLOCK, htne, min_nr_eq,
    show ((none : Option (List Nat)) = some d.device_name) = False from by simp]


theorem block_bytes_eq : BLOCK_SIZE = BDRV_SECTORS_PER_DIRTY_CHUNK * BDRV_SECTOR_SIZE := by
  norm_num [BLOCK_SIZE, BDRV_SECTORS_PER_DIRTY_CHUNK, BDRV_SECTOR_SIZE, BDRV_SECTOR_BITS,
    Nat.shiftLeft_eq]

theorem c1_zero_case (d : BlkMigDevState) (blk : BlkMigBlock)
    (devs : List (List Nat × Nat))
    (hlen : blk.buf.length = BLOCK_SIZE)
    (hname : d.device_name.length < 256)
    (hfind : findDev devs d.device_name = some d.total_sectors)
    (hs : blk.sector < d.total_sectors)
    (h0 : is_zero_blk blk.buf = true)
    (hemit : ¬(is_zero_blk blk.buf = true ∧ d.sparse_enable = true ∧
      d.bulk_completed = false)) :
    block_load (blk_send d blk ++ [WireItem.put_be64 BLK_MIG_FLAG_EOS]) devs =
      Except.ok [{ device := d.device_name,
                   sector := blk.sector,
                   nr_sectors := min BDRV_SECTORS_PER_DIRTY_CHUNK (d.total_sectors - blk.sector),
                   data := blk.buf.take
                     (min BDRV_SECTORS_PER_DIRTY_CHUNK (d.total_sectors - blk.sector) *
                       BDRV_SECTOR_SIZE) }] := by
  have hsend : blk_send d blk =
      [WireItem.put_be64 ((blk.sector <<< 9) ||| 9),
       WireItem.put_byte d.device_name.length,
       WireItem.put_buffer d.device_name,
       WireItem.fflush] := by
    unfold blk_send
    rw [if_neg hemit, Nat.mod_eq_of_lt hname, h0]
    simp only [BDRV_SECTOR_BITS, BLK_MIG_FLAG_DEVICE_BLOCK, BLK_MIG_FLAG_ZERO_BLOCK,
      if_true, Nat.lor_assoc, show ((1 : Nat) ||| 8) = 9 from by decide,
      List.cons_append, List.nil_append]
  have hmodA : ((blk.sector <<< 9) ||| 9) % 512 = 9 := header_mod _ _ (by norm_num)
  have hdivA : ((blk.sector <<< 9) ||| 9) / 512 = blk.sector := header_div _ _ (by norm_num)
  have htne : d.total_sectors ≠ 0 := by omega
  have hdata : blk.buf.take
      (min BDRV_SECTORS_PER_DIRTY_CHUNK (d.total_sectors - blk.sector) * BDRV_SECTOR_SIZE) =
      (List.replicate BLOCK_SIZE 0).take
        (min BDRV_SECTORS_PER_DIRTY_CHUNK (d.total_sectors - blk.sector) *
          BDRV_SECTOR_SIZE) := by
    rw [take_of_is_zero_blk blk.buf h0, List.take_replicate, hlen]
  rw [hsend]
  unfold block_load
  simp only [List.cons_append, List.nil_append, List.length_cons, List.length_nil]
  simp only [blockLoadLoop, nextTok, hmodA, hdivA, hfind, hlen, hdata]
  norm_num [BLK_MIG_FLAG_DEVICE_BLOCK, BLK_MIG_FLAG_EOS, BLK_MIG_FLAG_PROGRESS,
    BLK_MIG_FLAG_ZERO_BLOCK, htne, min_nr_eq,
    show ((9 : Nat) &&& 8) = 8 from by decide, show ((9 : Nat) &&& 1) = 1 from by decide,
    show ((9 : Nat) &&& 2) = 0 from by decide,
    show ((none : Option (List Nat)) = some d.device_name) = False from by simp]


/-- C1: frame round-trip.  For a device-block frame that `blk_send` emits for
buffer `B = blk.buf` at sector `s = blk.sector` of device `d`, where the
receiver has `d` registered under the same name with the same total sector
count, decoding the frame (followed by the end-of-stream marker) produces
exactly one write: to that device, at sector `s`, of
`min(SPC, total_sectors - s)` sectors, whose bytes are the corresponding
prefix of `B`; and when the frame carries `ZERO_BLOCK` (i.e. `B` is all zero)
those bytes are all zeros. -/
theorem c1_frame_round_trip (d : BlkMigDevState) (blk : BlkMigBlock)
    (devs : List (List Nat × Nat))
    (hlen : blk.buf.length = BLOCK_SIZE)
    (hname : d.device_name.length < 256)
    (hfind : findDev devs d.device_name = some d.total_sectors)
    (hs : blk.sector < d.total_sectors)
    (hemit : ¬(is_zero_blk blk.buf = true ∧ d.sparse_enable = true ∧
      d.bulk_completed = false)) :
    block_load (blk_send d blk ++ [WireItem.put_be64 BLK_MIG_FLAG_EOS]) devs =
      Except.ok [{ device := d.device_name,
                   sector := blk.sector,
                   nr_sectors := min BDRV_SECTORS_PER_DIRTY_CHUNK (d.total_sectors - blk.sector),
                   data := blk.buf.take
                     (min BDRV_SECTORS_PER_DIRTY_CHUNK (d.total_sectors - blk.sector) *
                       BDRV_SECTOR_SIZE) }] ∧
    (is_zero_blk blk.buf = true →
      blk.buf.take (min BDRV_SECTORS_PER_DIRTY_CHUNK (d.total_sectors - blk.sector) *
        BDRV_SECTOR_SIZE) =
      List.replicate (min BDRV_SECTORS_PER_DIRTY_CHUNK (d.total_sectors - blk.sector) *
        BDRV_SECTOR_SIZE) 0) := by
  have hzeros : is_zero_blk blk.buf = true →
      blk.buf.take (min BDRV_SECTORS_PER_DIRTY_CHUNK (d.total_sectors - blk.sector) *
        BDRV_SECTOR_SIZE) =
      List.replicate (min BDRV_SECTORS_PER_DIRTY_CHUNK (d.total_sectors - blk.sector) *
        BDRV_SECTOR_SIZE) 0 := by
    intro hz
    rw [take_of_is_zero_blk blk.buf hz, hlen]
    have hb : min BDRV_SECTORS_PER_DIRTY_CHUNK (d.total_sectors - blk.sector) *
        BDRV_SECTOR_SIZE ≤ BLOCK_SIZE := by
      rw [block_bytes_eq]
      exact Nat.mul_le_mul_right _ (Nat.min_le_left _ _)
    rw [Nat.min_eq_left hb]
  cases h0 : is_zero_blk blk.buf
  · exact ⟨c1_nonzero_case d blk devs hlen hname hfind hs h0, fun hz => absurd hz (by simp)⟩
  · exact ⟨c1_zero_case d blk devs hlen hname hfind hs h0 hemit, fun _ => hzeros h0⟩

/-- Witness for C1: an all-zero chunk of the one-sector device `a`, sparse
mode off, decoded against a table registering `a` with one sector. -/
theorem c1_frame_round_trip_witness :
    zeroBlk.buf.length = BLOCK_SIZE ∧
    smallDev.device_name.length < 256 ∧
    findDev [([97], 1)] smallDev.device_name = some smallDev.total_sectors ∧
    zeroBlk.sector < smallDev.total_sectors ∧
    ¬(is_zero_blk zeroBlk.buf = true ∧ smallDev.sparse_enable = true ∧
      smallDev.bulk_completed = false) ∧
    (block_load (blk_send smallDev zeroBlk ++ [WireItem.put_be64 BLK_MIG_FLAG_EOS]) [([97], 1)] =
      Except.ok [{ device := smallDev.device_name,
                   sector := zeroBlk.sector,
                   nr_sectors := min BDRV_SECTORS_PER_DIRTY_CHUNK
                     (smallDev.total_sectors - zeroBlk.sector),
                   data := zeroBlk.buf.take
                     (min BDRV_SECTORS_PER_DIRTY_CHUNK
                       (smallDev.total_sectors - zeroBlk.sector) * BDRV_SECTOR_SIZE) }] ∧
    (is_zero_blk zeroBlk.buf = true →
      zeroBlk.buf.take (min BDRV_SECTORS_PER_DIRTY_CHUNK
        (smallDev.total_sectors - zeroBlk.sector) * BDRV_SECTOR_SIZE) =
      List.replicate (min BDRV_SECTORS_PER_DIRTY_CHUNK
        (smallDev.total_sectors - zeroBlk.sector) * BDRV_SECTOR_SIZE) 0)) := by
  have h1 : zeroBlk.buf.length = BLOCK_SIZE := by
    simp [zeroBlk]
  have h2 : smallDev.device_name.length < 256 := by
    simp [smallDev]
  have h3 : findDev [([97], 1)] smallDev.device_name = some smallDev.total_sectors := by
    simp [findDev, smallDev]
  have h4 : zeroBlk.sector < smallDev.total_sectors := by
    simp [zeroBlk, smallDev]
  have h5 : ¬(is_zero_blk zeroBlk.buf = true ∧ smallDev.sparse_enable = true ∧
      smallDev.bulk_completed = false) := by
    intro h
    have := h.2.1
    simp [smallDev] at this
  exact ⟨h1, h2, h3, h4, h5, c1_frame_round_trip smallDev zeroBlk [([97], 1)] h1 h2 h3 h4 h5⟩

theorem EngineInv_updDev (st : BlkMigState) (i : Nat) (f : BlkMigDevState → BlkMigDevState) :
    EngineInv (updDev st i f) ↔ EngineInv st := by
  unfold EngineInv
  simp

theorem readCbStep_counters (st : BlkMigState) (b : BlkMigBlock) (r : Int) (t : ℚ) :
    (blk_mig_read_cb_step st b r t).blk_list.length = st.blk_list.length + 1 ∧
    (blk_mig_read_cb_step st b r t).read_done = st.read_done + 1 ∧
    (blk_mig_read_cb_step st b r t).submitted = st.submitted - 1 ∧
    (blk_mig_read_cb_step st b r t).inflight = st.inflight ∧
    (blk_mig_read_cb_step st b r t).transferred = st.transferred := by
  simp [blk_mig_read_cb_step]

theorem foldl_readCb_inv (now : ℚ) (l : List BlkMigBlock) :
    ∀ st : BlkMigState,
    st.blk_list.length = st.read_done.toNat → 0 ≤ st.read_done →
    st.inflight.length + l.length = st.submitted.toNat → 0 ≤ st.submitted →
    EngineInv (l.foldl (fun s b => blk_mig_read_cb_step s b 0 now) st) ∧
    (l.foldl (fun s b => blk_mig_read_cb_step s b 0 now) st).transferred = st.transferred := by
  induction l with
  | nil =>
    intro st h1 h2 h3 h4
    refine ⟨⟨h1, h2, ?_, ?_⟩, rfl⟩
    · simpa using h3
    · exact h4
  | cons b l ih =>
    intro st h1 h2 h3 h4
    simp only [List.foldl_cons]
    have hc := readCbStep_counters st b 0 now
    have hsub1 : 1 ≤ st.submitted := by
      simp only [List.length_cons] at h3
      omega
    have h1a : (blk_mig_read_cb_step st b 0 now).blk_list.length =
        (blk_mig_read_cb_step st b 0 now).read_done.toNat := by
      rw [hc.1, hc.2.1]
      omega
    have h2a : 0 ≤ (blk_mig_read_cb_step st b 0 now).read_done := by
      rw [hc.2.1]
      omega
    have h3a : (blk_mig_read_cb_step st b 0 now).inflight.length + l.length =
        (blk_mig_read_cb_step st b 0 now).submitted.toNat := by
      rw [hc.2.2.2.1, hc.2.2.1]
      simp only [List.length_cons] at h3
      omega
    have h4a : 0 ≤ (blk_mig_read_cb_step st b 0 now).submitted := by
      rw [hc.2.2.1]
      omega
    have := ih (blk_mig_read_cb_step st b 0 now) h1a h2a h3a h4a
    exact ⟨this.1, this.2.trans hc.2.2.2.2⟩

theorem drain_all_inv (st : BlkMigState) (now : ℚ) (h : EngineInv st) :
    EngineInv (drain_all st now) ∧ (drain_all st now).transferred = st.transferred := by
  unfold drain_all
  exact foldl_readCb_inv now st.inflight { st with inflight := [] } h.1 h.2.1
    (by simpa using h.2.2.1) h.2.2.2

theorem dirtyCopyChunk_inv (st1 : BlkMigState) (i : Nat) (sector : Nat) (is_async : Bool)
    (now : ℚ) (h : EngineInv st1) :
    EngineInv (dirtyCopyChunk st1 i sector is_async now).1 ∧
    (dirtyCopyChunk st1 i sector is_async now).1.transferred = st1.transferred := by
  obtain ⟨h1, h2, h3, h4⟩ := h
  cases is_async
  · simp only [dirtyCopyChunk, dirtyScanRet, Bool.false_eq_true, if_false]
    exact ⟨⟨h1, h2, h3, h4⟩, rfl⟩
  · simp only [dirtyCopyChunk, dirtyScanRet, if_true]
    refine ⟨⟨?_, ?_, ?_, ?_⟩, ?_⟩
    · simpa using h1
    · simpa using h2
    · simp only [updDev_inflight, updDev_submitted, maybeResetTimer_inflight,
        maybeResetTimer_submitted, List.length_append, List.length_cons, List.length_nil]
      omega
    · simp only [updDev_submitted, maybeResetTimer_submitted]
      omega
    · simp

theorem dirtyScanLoop_inv (i : Nat) (is_async : Bool) (now : ℚ) :
    ∀ (fuel : Nat) (st : BlkMigState) (sector : Nat), EngineInv st →
    EngineInv (dirtyScanLoop i is_async now fuel st sector).1 ∧
    (dirtyScanLoop i is_async now fuel st sector).1.transferred = st.transferred := by
  intro fuel
  induction fuel with
  | zero =>
    intro st sector h
    exact ⟨h, rfl⟩
  | succ fuel ih =>
    intro st sector h
    by_cases hlt : sector < (st.bmds_list.getD i default).total_sectors
    · rw [show dirtyScanLoop i is_async now (fuel + 1) st sector =
          (let d := st.bmds_list.getD i default
           let st1 := if bmds_aio_inflight d sector then drain_all st now else st
           let d1 := st1.bmds_list.getD i default
           if bdrv_get_dirty d1 sector then dirtyCopyChunk st1 i sector is_async now
           else dirtyScanLoop i is_async now fuel
             (updDev st1 i (fun d => { d with
               cur_dirty := sector + BDRV_SECTORS_PER_DIRTY_CHUNK }))
             (sector + BDRV_SECTORS_PER_DIRTY_CHUNK)) from by
        simp only [dirtyScanLoop]
        rw [if_pos hlt]]
      set st1 := (if bmds_aio_inflight (st.bmds_list.getD i default) sector then
        drain_all st now else st) with hst1
      have hinv1 : EngineInv st1 ∧ st1.transferred = st.transferred := by
        rw [hst1]
        split
        · exact drain_all_inv st now h
        · exact ⟨h, rfl⟩
      by_cases hbd : bdrv_get_dirty (st1.bmds_list.getD i default) sector = true
      · rw [if_pos hbd]
        have hc := dirtyCopyChunk_inv st1 i sector is_async now hinv1.1
        exact ⟨hc.1, hc.2.trans hinv1.2⟩
      · rw [if_neg hbd]
        have h2 : EngineInv (updDev st1 i (fun d => { d with
            cur_dirty := sector + BDRV_SECTORS_PER_DIRTY_CHUNK })) :=
          (EngineInv_updDev _ _ _).2 hinv1.1
        have := ih _ (sector + BDRV_SECTORS_PER_DIRTY_CHUNK) h2
        refine ⟨this.1, ?_⟩
        rw [this.2]
        simpa using hinv1.2
    · rw [show dirtyScanLoop i is_async now (fuel + 1) st sector = dirtyScanRet st i from by
        simp only [dirtyScanLoop]
        rw [if_neg hlt]]
      exact ⟨h, rfl⟩

theorem mig_save_device_dirty_inv (st : BlkMigState) (i : Nat) (is_async : Bool) (now : ℚ)
    (h : EngineInv st) :
    EngineInv (mig_save_device_dirty st i is_async now).1 ∧
    (mig_save_device_dirty st i is_async now).1.transferred = st.transferred := by
  unfold mig_save_device_dirty
  exact dirtyScanLoop_inv i is_async now _ st _ h

theorem mig_save_device_bulk_inv (st : BlkMigState) (i : Nat) (now : ℚ) (h : EngineInv st) :
    EngineInv (mig_save_device_bulk st i now).1 ∧
    (mig_save_device_bulk st i now).1.transferred = st.transferred := by
  obtain ⟨h1, h2, h3, h4⟩ := h
  unfold mig_save_device_bulk
  dsimp only
  split
  · split
    · exact ⟨⟨by simpa using h1, h2, by simpa using h3, h4⟩, by simp⟩
    · refine ⟨⟨?_, ?_, ?_, ?_⟩, ?_⟩
      · simpa using h1
      · simpa using h2
      · simp only [updDev_inflight, updDev_submitted, maybeResetTimer_inflight,
          maybeResetTimer_submitted, List.length_append, List.length_cons, List.length_nil]
        omega
      · simp only [updDev_submitted, maybeResetTimer_submitted]
        omega
      · simp
  · split
    · exact ⟨⟨by simpa using h1, h2, by simpa using h3, h4⟩, by simp⟩
    · refine ⟨⟨?_, ?_, ?_, ?_⟩, ?_⟩
      · simpa using h1
      · simpa using h2
      · simp only [updDev_inflight, updDev_submitted, maybeResetTimer_inflight,
          maybeResetTimer_submitted, List.length_append, List.length_cons, List.length_nil]
        omega
      · simp only [updDev_submitted, maybeResetTimer_submitted]
        omega
      · simp

theorem flushLoop_inv (rl : Nat → Bool) :
    ∀ (fuel : Nat) (st : BlkMigState), EngineInv st →
    EngineInv (flushLoop rl fuel st).1 ∧
    st.transferred ≤ (flushLoop rl fuel st).1.transferred := by
  intro fuel
  induction fuel with
  | zero =>
    intro st h
    exact ⟨h, le_refl _⟩
  | succ fuel ih =>
    intro st h
    obtain ⟨h1, h2, h3, h4⟩ := h
    simp only [flushLoop]
    cases hq : st.blk_list with
    | nil => exact ⟨⟨h1, h2, h3, h4⟩, le_refl _⟩
    | cons blk rest =>
      dsimp only
      by_cases hrl : rl st.transferred.toNat = true
      · rw [if_pos hrl]
        exact ⟨⟨h1, h2, h3, h4⟩, le_refl _⟩
      · rw [if_neg hrl]
        by_cases hret : blk.ret < 0
        · rw [if_pos hret]
          exact ⟨⟨h1, h2, h3, h4⟩, le_refl _⟩
        · rw [if_neg hret]
          rw [hq] at h1
          simp only [List.length_cons] at h1
          have hrd : 1 ≤ st.read_done := by omega
          have hnext : EngineInv { st with
              output := st.output ++ blk_send (st.bmds_list.getD blk.devIdx default) blk,
              blk_list := rest, read_done := st.read_done - 1,
              transferred := st.transferred + 1 } := by
            refine ⟨?_, ?_, h3, h4⟩
            · show rest.length = (st.read_done - 1).toNat
              omega
            · show (0 : Int) ≤ st.read_done - 1
              omega
          have := ih _ hnext
          refine ⟨this.1, ?_⟩
          calc st.transferred ≤ st.transferred + 1 := by omega
            _ ≤ _ := this.2

theorem flush_blks_inv (st : BlkMigState) (rl : Nat → Bool) (h : EngineInv st) :
    EngineInv (flush_blks st rl).1 ∧ st.transferred ≤ (flush_blks st rl).1.transferred := by
  unfold flush_blks
  exact flushLoop_inv rl _ st h


theorem flush_blks_nil (st : BlkMigState) (rl : Nat → Bool) (hq : st.blk_list = []) :
    flush_blks st rl = (st, 0) := by
  unfold flush_blks
  rw [hq]
  rfl

theorem block_save_setup_inv (st : BlkMigState) (devs : List BlkMigDevState) (rl : Nat → Bool)
    (now : ℚ) (hq : st.blk_list = []) (hinf : st.inflight = []) :
    EngineInv (block_save_setup st devs rl now).1 := by
  unfold block_save_setup
  have h1 : (init_blk_migration st devs).blk_list = [] := hq
  dsimp only
  rw [flush_blks_nil _ rl h1]
  dsimp only
  rw [if_neg (by norm_num : ¬((0 : Int) ≠ 0))]
  refine ⟨?_, ?_, ?_, ?_⟩
  · show st.blk_list.length = ((0 : Int)).toNat
    rw [hq]
    rfl
  · show (0 : Int) ≤ 0
    omega
  · show st.inflight.length = ((0 : Int)).toNat
    rw [hinf]
    rfl
  · show (0 : Int) ≤ 0
    omega

theorem readCb_op_inv (st : BlkMigState) (k : Nat) (ret : Int) (now : ℚ)
    (hk : k < st.inflight.length) (h : EngineInv st) :
    EngineInv (applyOp (EngineOp.readCb k ret now) st) ∧
    (applyOp (EngineOp.readCb k ret now) st).transferred = st.transferred := by
  obtain ⟨h1, h2, h3, h4⟩ := h
  have happ : applyOp (EngineOp.readCb k ret now) st =
      blk_mig_read_cb_step { st with inflight := st.inflight.eraseIdx k }
        (st.inflight.getD k default) ret now := by
    unfold applyOp
    dsimp only
    rw [if_pos hk]
  rw [happ]
  have hc := readCbStep_counters { st with inflight := st.inflight.eraseIdx k }
    (st.inflight.getD k default) ret now
  have hlen : (st.inflight.eraseIdx k).length = st.inflight.length - 1 :=
    List.length_eraseIdx_of_lt hk
  have hsub1 : 1 ≤ st.submitted := by
    omega
  refine ⟨⟨?_, ?_, ?_, ?_⟩, ?_⟩
  · rw [hc.1, hc.2.1]
    show st.blk_list.length + 1 = (st.read_done + 1).toNat
    omega
  · rw [hc.2.1]
    show (0 : Int) ≤ st.read_done + 1
    omega
  · rw [hc.2.2.2.1, hc.2.2.1]
    show (st.inflight.eraseIdx k).length = (st.submitted - 1).toNat
    rw [hlen]
    omega
  · rw [hc.2.2.1]
    show (0 : Int) ≤ st.submitted - 1
    omega
  · exact hc.2.2.2.2

/-- C8: pipeline-counter invariants.  In every state satisfying the counter
invariant, each engine operation — setup, a read-completion callback, a queue
flush, one bulk step, one dirty step — preserves it: the pending queue length
equals `read_done`, `read_done ≥ 0` and `submitted ≥ 0` (strengthened with
"`submitted` counts the outstanding async reads", which is what makes the
callback's decrement safe); and the `transferred` counter never decreases
across any operation other than setup (setup starts a new session and resets
all counters to zero). -/
theorem c8_counter_invariants (op : EngineOp) (st : BlkMigState)
    (hv : opValid op st) (hinv : EngineInv st) :
    EngineInv (applyOp op st) ∧
    (isSetup op = false → st.transferred ≤ (applyOp op st).transferred) := by
  cases op with
  | setup devs rl now =>
    refine ⟨block_save_setup_inv st devs rl now hv.1 hv.2, fun hf => ?_⟩
    simp [isSetup] at hf
  | readCb k ret now =>
    have h := readCb_op_inv st k ret now hv hinv
    exact ⟨h.1, fun _ => le_of_eq h.2.symm⟩
  | flushQ rl =>
    have h := flush_blks_inv st rl hinv
    exact ⟨h.1, fun _ => h.2⟩
  | bulkStep i now =>
    have h := mig_save_device_bulk_inv st i now hinv
    exact ⟨h.1, fun _ => le_of_eq h.2.symm⟩
  | dirtyStep i a now =>
    have h := mig_save_device_dirty_inv st i a now hinv
    exact ⟨h.1, fun _ => le_of_eq h.2.symm⟩

set_option maxRecDepth 8192 in
/-- Witness for C8: a dirty step on a fresh one-device state. -/
theorem c8_counter_invariants_witness :
    opValid (EngineOp.dirtyStep 0 true 0) dirtyChunkState ∧
    EngineInv dirtyChunkState ∧
    (EngineInv (applyOp (EngineOp.dirtyStep 0 true 0) dirtyChunkState) ∧
     (isSetup (EngineOp.dirtyStep 0 true 0) = false →
       dirtyChunkState.transferred ≤
         (applyOp (EngineOp.dirtyStep 0 true 0) dirtyChunkState).transferred)) := by
  have hv : opValid (EngineOp.dirtyStep 0 true 0) dirtyChunkState := trivial
  have hi : EngineInv dirtyChunkState := by
    refine ⟨rfl, ?_, rfl, ?_⟩ <;> decide
  exact ⟨hv, hi, c8_counter_invariants _ _ hv hi⟩

/-- C3 (code bug): an iterate call in which the dirty scan finds no dirty
chunk on any device does NOT drain the queue again, emit `EOS` and return the
convergence verdict.  `blk_mig_save_dirty_block` returns 1 for "no more dirty
blocks" (its documented non-error meaning, and the comment at the break says
so), but the following `if (ret)` treats any nonzero value as an error: the
engine is cleaned up (devices freed) and 1 is returned, with no final drain
and no `EOS` marker on the stream.  Evaluated here on a one-device state with
the bulk phase completed and no dirty chunks, under a rate limit that admits
the loop and with no read or transport errors: the call returns 1, emits
nothing (in particular no `EOS`), and destroys the device list. -/
theorem c3_no_dirty_bug :
    (block_save_iterate noDirtyState 1 (fun _ => false) 0 0).2 = 1 ∧
    (block_save_iterate noDirtyState 1 (fun _ => false) 0 0).1.output = [] ∧
    (block_save_iterate noDirtyState 1 (fun _ => false) 0 0).1.bmds_list.length = 0 :=
  ⟨rfl, rfl, rfl⟩

end BlockMigration
